import Mathlib

/-!
Verification of the lmstudio-agent-config merge/sync engine.

This file gives a shallow embedding, in Lean 4, of the pure core of the
repository: the model catalog filter (`models.py`), the four provider and
profile generators (`generators.py`), the format-preserving file mergers
(`files.py`), the diff/confirm gate and small utilities (`utils.py`), and
the backup name rotator.  Python dicts are embedded as association lists
with first-match lookup, JSON/TOML values as an inductive `JValue`, and
fallible code as `Except String`.  External library collaborators (the
`json5`/`tomllib` parsers, `difflib.ndiff`, `json.dumps`, the clock and the
filesystem) are modelled at their interfaces: a parse outcome is an input
of type `Option JValue` (with `none` standing for a parse failure), the
line-diff gate reports "no changed lines" exactly when the two texts are
equal (``difflib.ndiff`` emits a `+`/`-` line iff the keepends line lists
differ, and `splitlines(keepends=True)` is injective), the current date and
the set of already existing sibling files are parameters, and a faithful
fuel-driven serializer mirrors `json.dumps(obj, indent=n)`.
-/

namespace LMStudioAgentConfig

/-- JSON-like values, shared by the JSON and TOML documents the tool reads
and writes.  Python `None`/`True`/`False`/`int`/`str`/`list`/`dict` map to
the six constructors; objects keep insertion order, as Python dicts do. -/
inductive JValue where
  | null : JValue
  | bool (b : Bool) : JValue
  | int (n : Int) : JValue
  | str (s : String) : JValue
  | arr (elems : List JValue) : JValue
  | obj (entries : List (String × JValue)) : JValue

/-- A Python dict with string keys, embedded as an association list in
insertion order with first-match lookup. -/
abbrev Dict := List (String × JValue)

/-- Lookup of `d[k]` / `d.get(k)`: value at the first matching key. -/
def Dict.get? (d : Dict) (k : String) : Option JValue :=
  match d with
  | [] => none
  | (k', v) :: rest => if k' = k then some v else Dict.get? rest k

/-- Assignment `d[k] = v` on a Python dict: replace the value at the first
occurrence of `k` keeping its position, else append a new entry. -/
def Dict.set (d : Dict) (k : String) (v : JValue) : Dict :=
  match d with
  | [] => [(k, v)]
  | (k', v') :: rest => if k' = k then (k, v) :: rest else (k', v') :: Dict.set rest k v

/-- Python `d.setdefault(k, v)`: insert `k ↦ v` at the end when `k` is
absent, otherwise leave the dict unchanged. -/
def Dict.setdefault (d : Dict) (k : String) (v : JValue) : Dict :=
  match d.get? k with
  | some _ => d
  | none => d ++ [(k, v)]

/-- The keys of a dict, in insertion order. -/
def Dict.keys (d : Dict) : List String := d.map Prod.fst

/-- Python truthiness (`bool(x)`) on embedded JSON values. -/
def JValue.truthy : JValue → Bool
  | .null => false
  | .bool b => b
  | .int n => n != 0
  | .str s => s != ""
  | .arr xs => !xs.isEmpty
  | .obj kvs => !kvs.isEmpty

/-- Python `isinstance(x, int)` on embedded values: `int`s qualify, and so
do `bool`s (Python `bool` is a subclass of `int`, `True == 1`). -/
def JValue.asPyInt : JValue → Option Int
  | .int n => some n
  | .bool b => some (if b then 1 else 0)
  | _ => none

-- Basic dict lemmas ---------------------------------------------------------

theorem Dict.get?_set_self (d : Dict) (k : String) (v : JValue) :
    (d.set k v).get? k = some v := by
  induction d with
  | nil => simp [Dict.set, Dict.get?]
  | cons hd tl ih =>
    by_cases h : hd.1 = k <;> simp [Dict.set, Dict.get?, h, ih]

theorem Dict.get?_set_ne (d : Dict) (k k' : String) (v : JValue) (h : k ≠ k') :
    (d.set k v).get? k' = d.get? k' := by
  induction d with
  | nil => simp [Dict.set, Dict.get?, h]
  | cons hd tl ih =>
    by_cases hh : hd.1 = k
    · simp [Dict.set, Dict.get?, hh, h, ih]
    · by_cases hk' : hd.1 = k' <;>
        simp [Dict.set, Dict.get?, hh, hk', ih, Ne.symm h]

theorem Dict.set_eq_self (d : Dict) (k : String) (v : JValue)
    (h : d.get? k = some v) : d.set k v = d := by
  induction d with
  | nil => simp [Dict.get?] at h
  | cons hd tl ih =>
    by_cases hh : hd.1 = k
    · simp only [Dict.get?, hh, if_pos rfl] at h
      cases h
      simp [Dict.set, if_pos hh, ← hh]
    · simp only [Dict.get?, hh, if_neg hh] at h
      simp [Dict.set, if_neg hh, ih h]

theorem Dict.set_set (d : Dict) (k : String) (v w : JValue) :
    (d.set k v).set k w = d.set k w := by
  induction d with
  | nil => simp [Dict.set]
  | cons hd tl ih =>
    by_cases hh : hd.1 = k
    · simp [Dict.set, hh]
    · simp [Dict.set, hh, ih]

theorem Dict.setdefault_of_mem (d : Dict) (k : String) (v w : JValue)
    (h : d.get? k = some v) : d.setdefault k w = d := by
  simp [Dict.setdefault, h]

theorem Dict.get?_setdefault_ne (d : Dict) (k k' : String) (v : JValue) (h : k ≠ k') :
    (d.setdefault k v).get? k' = d.get? k' := by
  unfold Dict.setdefault
  cases hg : d.get? k with
  | some w => rfl
  | none =>
    induction d with
    | nil => simp [Dict.get?, h]
    | cons hd tl ih =>
      by_cases hk' : hd.1 = k'
      · simp [Dict.get?, hk']
      · simp only [Dict.get?, hk', if_neg hk'] at *
        by_cases hdk : hd.1 = k
        · simp [Dict.get?, hdk] at hg
        · simp only [Dict.get?, hdk, if_neg hdk] at hg
          exact ih hg

theorem Dict.set_ne_nil (d : Dict) (k : String) (v : JValue) :
    d.set k v ≠ [] := by
  cases d with
  | nil => simp [Dict.set]
  | cons hd tl =>
    by_cases h : hd.1 = k <;> simp [Dict.set, h]

-- Decimal formatting --------------------------------------------------------

/-- Fuel-driven decimal digit writer; with fuel above `n` it produces the
usual base-10 digit list of `n`.  This embeds Python's decimal formatting
of a non-negative integer (as in `f-strings` and `str(int)`). -/
def natDecChars : Nat → Nat → List Char
  | 0, _ => []
  | fuel + 1, n =>
    if n < 10 then [Nat.digitChar n]
    else natDecChars fuel (n / 10) ++ [Nat.digitChar (n % 10)]

/-- Decimal representation of a natural number, as Python formats it. -/
def natToDec (n : Nat) : String := String.mk (natDecChars (n + 1) n)

/-- Digit value of a decimal digit character, a left inverse used only in
proofs. -/
def decDigitVal (c : Char) : Nat :=
  if c = '0' then 0 else if c = '1' then 1 else if c = '2' then 2
  else if c = '3' then 3 else if c = '4' then 4 else if c = '5' then 5
  else if c = '6' then 6 else if c = '7' then 7 else if c = '8' then 8 else 9

/-- Decode a digit list back to the natural number it denotes. -/
def decValue (cs : List Char) : Nat := cs.foldl (fun acc c => acc * 10 + decDigitVal c) 0

theorem decDigitVal_digitChar (n : Nat) (h : n < 10) :
    decDigitVal (Nat.digitChar n) = n := by
  interval_cases n <;> rfl

theorem decValue_append (l : List Char) (c : Char) :
    decValue (l ++ [c]) = decValue l * 10 + decDigitVal c := by
  simp [decValue, List.foldl_append]

theorem decValue_go (l : List Char) (a : Nat) :
    (l.foldl (fun acc c => acc * 10 + decDigitVal c) a) =
      a * 10 ^ l.length + decValue l := by
  induction l generalizing a with
  | nil => simp [decValue]
  | cons hd tl ih =>
    simp only [List.foldl_cons, List.length_cons, decValue]
    rw [ih, ih (0 * 10 + decDigitVal hd)]
    ring

theorem decValue_natDecChars (fuel n : Nat) (h : n < fuel) :
    decValue (natDecChars fuel n) = n := by
  induction fuel generalizing n with
  | zero => omega
  | succ fuel ih =>
    by_cases h10 : n < 10
    · simp [natDecChars, h10, decValue, decDigitVal_digitChar n h10]
    · have hdiv : n / 10 < fuel := by omega
      rw [natDecChars, if_neg h10]
      rw [decValue_append, ih _ hdiv,
        decDigitVal_digitChar _ (Nat.mod_lt n (by omega))]
      omega

theorem decValue_natToDec (n : Nat) : decValue (natToDec n).data = n := by
  simpa [natToDec] using decValue_natDecChars (n + 1) n (by omega)

theorem natToDec_injective : Function.Injective natToDec := by
  intro a b h
  have := decValue_natToDec a
  rw [h, decValue_natToDec] at this
  omega

theorem natDecChars_ne_nil (n : Nat) : natDecChars (n + 1) n ≠ [] := by
  by_cases h10 : n < 10 <;> simp [natDecChars, h10]

theorem natToDec_length_pos (n : Nat) : 0 < (natToDec n).length := by
  have := natDecChars_ne_nil n
  simp only [natToDec, String.length]
  cases hc : natDecChars (n + 1) n with
  | nil => exact absurd hc this
  | cons c cs => simp

-- The model catalog filter (models.py) --------------------------------------

/-- One model descriptor as reported by the upstream source: the embedding
of the raw dict consumed by `models.py`.  Each field records the value of
the corresponding key of the payload dict, with `none` meaning absent;
`max_context_length` and `capabilities` keep the raw value since the code
inspects their runtime types. -/
structure ModelInfo where
  key : Option String
  type : Option String
  max_context_length : Option JValue
  capabilities : Option JValue

/-- Embedding of `get_model_id`: the `key` field of the v1 payload. -/
def get_model_id (m : ModelInfo) : Option String := m.key

/-- Embedding of `model_supports_tool_calling`: truthiness of
`capabilities["trained_for_tool_use"]` when `capabilities` is a dict. -/
def model_supports_tool_calling (m : ModelInfo) : Bool :=
  match m.capabilities with
  | some (.obj kvs) => ((Dict.get? kvs "trained_for_tool_use").getD .null).truthy
  | _ => false

/-- Embedding of `model_supports_vision`: truthiness of
`capabilities["vision"]` when `capabilities` is a dict. -/
def model_supports_vision (m : ModelInfo) : Bool :=
  match m.capabilities with
  | some (.obj kvs) => ((Dict.get? kvs "vision").getD .null).truthy
  | _ => false

/-- Context check of `model_matches_filters`: passes iff the field holds a
Python int that is at least `mc`. -/
def contextOk (m : ModelInfo) (mc : Int) : Bool :=
  match m.max_context_length with
  | some v =>
    match v.asPyInt with
    | some n => decide (mc ≤ n)
    | none => false
  | none => false

/-- The tools flag as the filter sees it: `model_supports_tool_calling`
for `llm`-kind models, `False` otherwise (line 49-51 of models.py). -/
def filterHasTools (m : ModelInfo) : Bool :=
  if m.type = some "llm" then model_supports_tool_calling m else false

/-- The vision flag as the filter sees it (line 57 of models.py). -/
def filterHasVision (m : ModelInfo) : Bool :=
  if m.type = some "llm" then model_supports_vision m else false

/-- Embedding of `model_matches_filters`.  The Python function returns
`False` at the first failing check; the conjunction below lists the checks
in source order. -/
def model_matches_filters (m : ModelInfo) (min_context : Option Int)
    (tools_filter vision_filter : String) : Bool :=
  (match min_context with
   | none => true
   | some mc => contextOk m mc) &&
  (!(tools_filter = "required" && !filterHasTools m)) &&
  (!(tools_filter = "exclude" && filterHasTools m)) &&
  (!(vision_filter = "required" && !filterHasVision m)) &&
  (!(vision_filter = "exclude" && filterHasVision m))

/-- Embedding of `filter_models`: keep the models matching the filters. -/
def filter_models (models : List ModelInfo) (min_context : Option Int)
    (tools_filter vision_filter : String) : List ModelInfo :=
  models.filter (fun m => model_matches_filters m min_context tools_filter vision_filter)

-- Utilities (utils.py) ------------------------------------------------------

/-- Leading run of spaces and tabs of a line. -/
def leadingWS : List Char → List Char
  | [] => []
  | c :: rest => if c = ' ' ∨ c = '\t' then c :: leadingWS rest else []

/-- Scan of `detect_indentation`: the first line beginning with a space or
tab decides the width; otherwise keep scanning, defaulting to 2. -/
def detectIndentGo : List String → Nat
  | [] => 2
  | line :: rest =>
    match line.data with
    | [] => detectIndentGo rest
    | c :: _ =>
      if c = ' ' ∨ c = '\t' then
        let indent := leadingWS line.data
        if indent.length > 0 then indent.length else detectIndentGo rest
      else detectIndentGo rest

/-- Split a character list at newline characters, keeping empty pieces. -/
def splitNL : List Char → List (List Char)
  | [] => [[]]
  | c :: rest =>
    if c = '\n' then [] :: splitNL rest
    else
      match splitNL rest with
      | [] => [[c]]
      | h :: t => (c :: h) :: t

/-- Embedding of `detect_indentation` from utils.py.  Python's
`splitlines` is modelled by splitting on a newline; the possible final
empty piece is skipped by the scan exactly as an empty line is. -/
def detect_indentation (content : String) : Nat :=
  detectIndentGo ((splitNL content.data).map String.mk)

/-- Python `url.rstrip("/")`: drop every trailing slash. -/
def rstripSlash (url : String) : String :=
  String.mk (url.data.reverse.dropWhile (fun c => c = '/')).reverse

/-- Python `s.startswith(p)`, via code-point lists. -/
def strStartsWith (s p : String) : Bool := p.data.isPrefixOf s.data

/-- Python `s.endswith(p)`, via code-point lists. -/
def strEndsWith (s p : String) : Bool := p.data.isSuffixOf s.data

/-- Embedding of `normalize_openai_base_url`: strip trailing slashes and
append `/v1` unless already present. -/
def normalize_openai_base_url (url : String) : String :=
  let base := rstripSlash url
  if strEndsWith base "/v1" then base else base ++ "/v1"

/-- Whitespace characters removed by Python `str.strip()`. -/
def isPyWS (c : Char) : Bool :=
  c = ' ' ∨ c = '\t' ∨ c = '\n' ∨ c = '\r' ∨ c = '\x0b' ∨ c = '\x0c'

/-- Python `s.strip()`: drop leading and trailing whitespace. -/
def pyStrip (s : String) : String :=
  String.mk (((s.data.dropWhile isPyWS).reverse.dropWhile isPyWS).reverse)

/-- Python `s.lower()` (ASCII case fold suffices for the inputs compared
against `y`/`yes`). -/
def pyLower (s : String) : String := String.mk (s.data.map Char.toLower)

/-- Outcome of the diff/confirm gate. -/
inductive Decision where
  | unchanged : Decision
  | apply : Decision
  | cancel : Decision
deriving DecidableEq

/-- Result of the gate: the decision and whether the operator was
prompted. -/
structure ConfirmResult where
  decision : Decision
  prompted : Bool
deriving DecidableEq

/-- Embedding of `show_diff_and_confirm`.  The source computes
`difflib.ndiff` over `splitlines(keepends=True)` of the two texts and
keeps lines starting with `+` or `-`; such a line exists iff the two line
lists differ, and since `splitlines(keepends=True)` is injective that is
iff the texts differ.  So: equal texts return `unchanged` with no prompt;
otherwise the operator's response decides, any answer other than `y`/`yes`
(case-insensitive, stripped) meaning `cancel`. -/
def show_diff_and_confirm (old_content new_content : String)
    (response : String) : ConfirmResult :=
  if old_content = new_content then ⟨.unchanged, false⟩
  else if pyLower (pyStrip response) = "y" ∨ pyLower (pyStrip response) = "yes" then
    ⟨.apply, true⟩
  else ⟨.cancel, true⟩

-- Python string ordering ----------------------------------------------------

/-- Lexicographic comparison of code-point lists: the order Python uses to
compare strings (and hence the order of `sorted` on string keys). -/
def charsLe : List Char → List Char → Bool
  | [], _ => true
  | _ :: _, [] => false
  | a :: as, b :: bs => if a = b then charsLe as bs else decide (a < b)

/-- Python string `<=`, as a proposition usable by the sorting lemmas. -/
def pyStrLe (a b : String) : Prop := charsLe a.data b.data = true

instance : DecidableRel pyStrLe := fun a b => by unfold pyStrLe; infer_instance

theorem charsLe_total (a b : List Char) : charsLe a b ∨ charsLe b a := by
  induction a generalizing b with
  | nil => left; rfl
  | cons x xs ih =>
    cases b with
    | nil => right; rfl
    | cons y ys =>
      by_cases hxy : x = y
      · subst hxy
        rcases ih ys with h | h
        · left; simpa [charsLe] using h
        · right; simpa [charsLe] using h
      · rcases lt_trichotomy x y with h | h | h
        · left; simp [charsLe, hxy, h]
        · exact absurd h hxy
        · right; simp [charsLe, Ne.symm hxy, h]

theorem charsLe_trans (a b c : List Char) (h1 : charsLe a b) (h2 : charsLe b c) :
    charsLe a c := by
  induction a generalizing b c with
  | nil => rfl
  | cons x xs ih =>
    cases b with
    | nil => simp [charsLe] at h1
    | cons y ys =>
      cases c with
      | nil => simp [charsLe] at h2
      | cons z zs =>
        by_cases hxy : x = y
        · subst hxy
          by_cases hyz : x = z
          · subst hyz
            simp only [charsLe, if_pos rfl] at *
            exact ih ys zs h1 h2
          · simp only [charsLe, if_pos rfl] at h1
            simpa [charsLe, hyz] using h2
        · by_cases hyz : y = z
          · subst hyz
            simpa [charsLe, hxy] using h1
          · simp only [charsLe, if_neg hxy, decide_eq_true_eq] at h1
            simp only [charsLe, if_neg hyz, decide_eq_true_eq] at h2
            have hxz : x < z := lt_trans h1 h2
            simp [charsLe, ne_of_lt hxz, hxz]

instance : IsTotal String pyStrLe := ⟨fun a b => charsLe_total a.data b.data⟩

instance : IsTrans String pyStrLe :=
  ⟨fun a b c h1 h2 => charsLe_trans a.data b.data c.data h1 h2⟩

/-- Python `sorted` on a list of strings: a stable sort by the code-point
order (insertion sort is stable, like Python's timsort). -/
def pySorted (l : List String) : List String := l.insertionSort pyStrLe

-- Profile naming (generators.py lines 15-44) --------------------------------

/-- Is a character in the class `[a-z0-9]` kept by the slug regex. -/
def slugKeep (c : Char) : Bool := (('a' ≤ c ∧ c ≤ 'z') ∨ ('0' ≤ c ∧ c ≤ '9'))

/-- Scanner for the slug regex: the flag records whether the previous
character belonged to a run already replaced by a dash, so each maximal
run of characters outside `[a-z0-9]` emits exactly one dash. -/
def collapseRunsGo : Bool → List Char → List Char
  | _, [] => []
  | inRun, c :: rest =>
    if slugKeep c then c :: collapseRunsGo false rest
    else if inRun then collapseRunsGo true rest
    else '-' :: collapseRunsGo true rest

/-- Replace every maximal run of characters outside `[a-z0-9]` by a single
dash, as `re.sub(r"[^a-z0-9]+", "-", s)` does. -/
def collapseRuns (cs : List Char) : List Char := collapseRunsGo false cs

/-- Python `s.strip("-")`: drop leading and trailing dashes. -/
def stripDashes (cs : List Char) : List Char :=
  ((cs.dropWhile (fun c => c = '-')).reverse.dropWhile (fun c => c = '-')).reverse

/-- The slug of `codex_profile_name_for_model`: lower-case, collapse runs
of characters outside `[a-z0-9]` to single dashes, strip edge dashes. -/
def slugify (model_id : String) : String :=
  String.mk (stripDashes (collapseRuns (model_id.data.map Char.toLower)))

/-- Candidate names tried by the collision loop: the bare base first, then
`base-2`, `base-3`, and so on. -/
def candName (base : String) : Nat → String
  | 0 => base
  | k + 1 => base ++ "-" ++ natToDec (k + 2)

/-- Find, within `fuel` attempts starting from candidate `k`, the first
candidate index whose name is not in `used`.  With fuel `used.length + 1`
the search always succeeds (see `firstFreeGo_spec`). -/
def firstFreeGo (f : Nat → String) (used : List String) : Nat → Nat → Nat
  | 0, k => k
  | fuel + 1, k => if f k ∈ used then firstFreeGo f used fuel (k + 1) else k

/-- Embedding of `codex_profile_name_for_model`: build the slug and base,
probe `base`, `base-2`, `base-3`, … until a name free of `used_names` is
found, and return it together with the updated used-name set (the Python
function mutates the set in place before returning). -/
def codex_profile_name_for_model (model_id : String) (used_names : List String)
    (pre : String := "lmstudio") : String × List String :=
  let slug0 := slugify model_id
  let slug := if slug0 = "" then "model" else slug0
  let base := pre ++ "-" ++ slug
  let name := candName base (firstFreeGo (candName base) used_names (used_names.length + 1) 0)
  (name, name :: used_names)

/-- Python `sorted(set(ids))`: the distinct ids in ascending order. -/
def sortedDedup (ids : List String) : List String :=
  pySorted ids.dedup

/-- One generated Codex profile record. -/
def codexProfileEntry (model_id provider_id : String) : JValue :=
  .obj [("model", .str model_id), ("model_provider", .str provider_id)]

/-- Loop of `generate_codex_profiles`: names are generated in sorted-id
order, threading the used-name set; every generated name is fresh, so the
dict insertion appends and the entries appear in loop order. -/
def codexProfilesGo (provider_id : String) : List String → List String → Dict
  | [], _ => []
  | id :: rest, used =>
    let r := codex_profile_name_for_model id used
    (r.1, codexProfileEntry id provider_id) :: codexProfilesGo provider_id rest r.2

/-- Embedding of `generate_codex_profiles`. -/
def generate_codex_profiles (model_ids : List String) (provider_id : String) : Dict :=
  codexProfilesGo provider_id (sortedDedup model_ids) []

-- The four generators (generators.py lines 47-248) --------------------------

/-- Python `model.get("max_context_length", 8192)`: the raw field value,
or the integer 8192 when the key is absent. -/
def maxContextOf (m : ModelInfo) : JValue :=
  m.max_context_length.getD (.int 8192)

/-- A descriptor survives a generator's per-model discards iff its kind is
`llm` and its id is present and non-empty (the two `continue` checks that
every generator repeats). -/
def survivesLLM (m : ModelInfo) : Bool :=
  m.type = some "llm" &&
    (match get_model_id m with
     | some id => id ≠ ""
     | none => false)

/-- Order on dict entries by key, in Python string order. -/
def entryLe (a b : String × JValue) : Prop := pyStrLe a.1 b.1

instance : DecidableRel entryLe := fun a b => by unfold entryLe; infer_instance

instance : IsTotal (String × JValue) entryLe :=
  ⟨fun a b => charsLe_total a.1.data b.1.data⟩

instance : IsTrans (String × JValue) entryLe :=
  ⟨fun a b c h1 h2 => charsLe_trans a.1.data b.1.data c.1.data h1 h2⟩

/-- Python `OrderedDict(sorted(v.items(), key=fst))`: entries sorted by
key. -/
def sortEntriesByKey (e : Dict) : Dict := e.insertionSort entryLe

/-- Rebuild a dict with its keys in sorted order, preserving values: the
`for model_id in sorted(config.keys())` loops of the generators. -/
def orderByKey (config : Dict) : Dict :=
  (pySorted config.keys).filterMap fun k => (config.get? k).map fun v => (k, v)

/-- One editor-settings model entry, fields in the source's insertion
order (generate_copilot_config lines 73-82). -/
def copilotEntry (openai_url model_id : String) (m : ModelInfo) : Dict :=
  [("name", .str model_id), ("url", .str openai_url),
   ("toolCalling", .bool (model_supports_tool_calling m)),
   ("vision", .bool (model_supports_vision m)),
   ("thinking", .bool true),
   ("maxInputTokens", maxContextOf m), ("maxOutputTokens", maxContextOf m),
   ("requiresAPIKey", .bool false)]

/-- The model loop of `generate_copilot_config`: skip non-llm kinds and
missing/empty ids, then assign the entry under the model id. -/
def copilotBuild (openai_url : String) : List ModelInfo → Dict → Dict
  | [], acc => acc
  | m :: rest, acc =>
    if m.type ≠ some "llm" then copilotBuild openai_url rest acc
    else
      match get_model_id m with
      | none => copilotBuild openai_url rest acc
      | some id =>
        if id = "" then copilotBuild openai_url rest acc
        else copilotBuild openai_url rest (acc.set id (.obj (copilotEntry openai_url id m)))

/-- Sort the copilot map by model id and each entry's fields by name
(generate_copilot_config lines 88-94). -/
def orderCopilot (config : Dict) : Dict :=
  (pySorted config.keys).filterMap fun k =>
    (config.get? k).map fun v =>
      (k, match v with
          | .obj e => JValue.obj (sortEntriesByKey e)
          | v => v)

/-- Embedding of `generate_copilot_config`, as a function of the fetched
model list (the HTTP fetch is an injected collaborator). -/
def generate_copilot_config (models : List ModelInfo) (openai_url : String)
    (min_context : Option Int := none) (tools_filter : String := "any")
    (vision_filter : String := "any") : Except String Dict :=
  let ms := filter_models models min_context tools_filter vision_filter
  let config := copilotBuild openai_url ms []
  if config.isEmpty then .error "No LLM models matched the selected filters."
  else .ok (orderCopilot config)

/-- One provider-map model entry (generate_opencode_provider lines
125-138): name and limits first, then the modalities assignment. -/
def opencodeModelEntry (model_id : String) (m : ModelInfo) : Dict :=
  let base : Dict :=
    [("name", .str model_id),
     ("limit", .obj [("context", maxContextOf m), ("output", maxContextOf m)])]
  if model_supports_vision m then
    base.set "modalities"
      (.obj [("input", .arr [.str "text", .str "image"]), ("output", .arr [.str "text"])])
  else
    base.set "modalities" (.obj [("input", .arr [.str "text"]), ("output", .arr [.str "text"])])

/-- The model loop of `generate_opencode_provider`. -/
def opencodeBuild : List ModelInfo → Dict → Dict
  | [], acc => acc
  | m :: rest, acc =>
    if m.type ≠ some "llm" then opencodeBuild rest acc
    else
      match get_model_id m with
      | none => opencodeBuild rest acc
      | some id =>
        if id = "" then opencodeBuild rest acc
        else opencodeBuild rest (acc.set id (.obj (opencodeModelEntry id m)))

/-- Embedding of `generate_opencode_provider`. -/
def generate_opencode_provider (models : List ModelInfo) (base_url : String)
    (provider_id : String := "lmstudio") (provider_name : String := "LM Studio (local)")
    (min_context : Option Int := none) (tools_filter : String := "any")
    (vision_filter : String := "any") : Except String (String × Dict) :=
  let ms := filter_models models min_context tools_filter vision_filter
  let config := opencodeBuild ms []
  if config.isEmpty then .error "No LLM models matched the selected filters."
  else
    let ordered_models := orderByKey config
    let provider : Dict :=
      [("npm", .str "@ai-sdk/openai-compatible"),
       ("name", .str provider_name),
       ("options", .obj [("baseURL", .str (normalize_openai_base_url base_url))]),
       ("models", .obj ordered_models)]
    .ok (provider_id, provider)

/-- One provider-list model entry (generate_pi_provider lines 186-192). -/
def piModelEntry (model_id : String) (m : ModelInfo) : Dict :=
  [("id", .str model_id), ("name", .str model_id),
   ("input",
     if model_supports_vision m then .arr [.str "text", .str "image"]
     else .arr [.str "text"]),
   ("contextWindow", maxContextOf m), ("maxTokens", maxContextOf m)]

/-- The model loop of `generate_pi_provider`, appending entries in input
order. -/
def piBuild : List ModelInfo → List Dict
  | [] => []
  | m :: rest =>
    if m.type ≠ some "llm" then piBuild rest
    else
      match get_model_id m with
      | none => piBuild rest
      | some id =>
        if id = "" then piBuild rest
        else piModelEntry id m :: piBuild rest

/-- The id of a generated provider-list entry; every generated entry holds
a string at key `id` (Python indexes `model["id"]` directly). -/
def piEntryId (e : Dict) : String :=
  match e.get? "id" with
  | some (.str s) => s
  | _ => ""

/-- Order on provider-list entries by model id: the sort key of
`sorted(config, key=lambda model: model["id"])`. -/
def piEntryLe (a b : Dict) : Prop := pyStrLe (piEntryId a) (piEntryId b)

instance : DecidableRel piEntryLe := fun a b => by unfold piEntryLe; infer_instance

instance : IsTotal Dict piEntryLe :=
  ⟨fun a b => charsLe_total (piEntryId a).data (piEntryId b).data⟩

instance : IsTrans Dict piEntryLe :=
  ⟨fun a b c h1 h2 => charsLe_trans (piEntryId a).data (piEntryId b).data (piEntryId c).data h1 h2⟩

/-- Embedding of `generate_pi_provider`. -/
def generate_pi_provider (models : List ModelInfo) (base_url : String)
    (provider_id : String := "lmstudio") (min_context : Option Int := none)
    (tools_filter : String := "any") (vision_filter : String := "any") :
    Except String (String × Dict) :=
  let ms := filter_models models min_context tools_filter vision_filter
  let config := piBuild ms
  if config.isEmpty then .error "No LLM models matched the selected filters."
  else
    let ordered_models := config.insertionSort piEntryLe
    let provider : Dict :=
      [("baseUrl", .str (normalize_openai_base_url base_url)),
       ("api", .str "openai-completions"),
       ("apiKey", .str "lm-studio"),
       ("models", .arr (ordered_models.map JValue.obj))]
    .ok (provider_id, provider)

/-- The id-collecting loop of `generate_codex_config` (lines 226-232). -/
def codexCollectIds : List ModelInfo → List String
  | [] => []
  | m :: rest =>
    if m.type ≠ some "llm" then codexCollectIds rest
    else
      match get_model_id m with
      | none => codexCollectIds rest
      | some id =>
        if id = "" then codexCollectIds rest
        else id :: codexCollectIds rest

/-- Embedding of `generate_codex_config`. -/
def generate_codex_config (models : List ModelInfo) (base_url : String)
    (provider_id : String := "lmstudio_local")
    (provider_name : String := "LM Studio (local)")
    (min_context : Option Int := none) (tools_filter : String := "any")
    (vision_filter : String := "any") : Except String Dict :=
  let ms := filter_models models min_context tools_filter vision_filter
  let llm_ids := codexCollectIds ms
  if llm_ids.isEmpty then .error "No LLM models matched the selected filters."
  else
    let provider : Dict :=
      [("name", .str provider_name),
       ("base_url", .str (normalize_openai_base_url base_url)),
       ("wire_api", .str "responses")]
    .ok [("model_providers", .obj [(provider_id, .obj provider)]),
         ("profiles", .obj (generate_codex_profiles llm_ids provider_id))]

-- Serialization model of json.dumps(obj, indent=n) --------------------------

/-- Hexadecimal digit character, used by JSON unicode escapes. -/
def hexDigit (n : Nat) : Char := Nat.digitChar (n % 16)

/-- A JSON `\uXXXX` escape for a code point below 0x10000. -/
def uEscape (n : Nat) : List Char :=
  ['\\', 'u', hexDigit (n / 4096), hexDigit (n / 256 % 16), hexDigit (n / 16 % 16),
   hexDigit (n % 16)]

/-- Escape one character the way `json.dumps` does with the default
`ensure_ascii=True` (basic multilingual plane; the documents written by
the tool stay well inside it). -/
def escJsonChar (c : Char) : List Char :=
  if c = '"' then ['\\', '"']
  else if c = '\\' then ['\\', '\\']
  else if c = '\n' then ['\\', 'n']
  else if c = '\t' then ['\\', 't']
  else if c = '\r' then ['\\', 'r']
  else if c.toNat < 32 ∨ c.toNat ≥ 127 then uEscape c.toNat
  else [c]

/-- Quote and escape a string as a JSON string literal. -/
def jsonQuote (s : String) : String :=
  "\"" ++ String.mk (s.data.foldr (fun c acc => escJsonChar c ++ acc) []) ++ "\""

/-- Decimal rendering of a Python int. -/
def intToDec (n : Int) : String :=
  if n < 0 then "-" ++ natToDec n.natAbs else natToDec n.natAbs

/-- A run of spaces. -/
def nSpaces (n : Nat) : String := String.mk (List.replicate n ' ')

/-- Join pieces with a separator. -/
def joinSep (sep : String) : List String → String
  | [] => ""
  | [x] => x
  | x :: xs => x ++ sep ++ joinSep sep xs

mutual

/-- Serializer mirroring `json.dumps(value, indent=ind)` at nesting level
`lvl`: items on their own lines at `ind * level` spaces, `": "` after
keys, `,` between items, empty containers inline. -/
def serJValue (ind : Nat) : Nat → JValue → String
  | _, .null => "null"
  | _, .bool b => if b then "true" else "false"
  | _, .int n => intToDec n
  | _, .str s => jsonQuote s
  | _, .arr [] => "[]"
  | lvl, .arr (x :: xs) =>
    "[\n" ++ joinSep ",\n" (serArrItems ind (lvl + 1) (x :: xs)) ++
      "\n" ++ nSpaces (ind * lvl) ++ "]"
  | _, .obj [] => "\x7b\x7d"
  | lvl, .obj (kv :: kvs) =>
    "\x7b\n" ++ joinSep ",\n" (serObjItems ind (lvl + 1) (kv :: kvs)) ++
      "\n" ++ nSpaces (ind * lvl) ++ "\x7d"

/-- Array items of the serializer, one line each. -/
def serArrItems (ind : Nat) : Nat → List JValue → List String
  | _, [] => []
  | lvl, x :: xs => (nSpaces (ind * lvl) ++ serJValue ind lvl x) :: serArrItems ind lvl xs

/-- Object items of the serializer, one `"key": value` line each. -/
def serObjItems (ind : Nat) : Nat → List (String × JValue) → List String
  | _, [] => []
  | lvl, (k, v) :: rest =>
    (nSpaces (ind * lvl) ++ jsonQuote k ++ ": " ++ serJValue ind lvl v) ::
      serObjItems ind lvl rest

end

/-- Model of `json.dumps(v, indent=ind)`. -/
def jsonDumps (v : JValue) (ind : Nat) : String := serJValue ind 0 v

-- Backup naming (files.py lines 24-37) --------------------------------------

/-- The backup file name the source builds:
`f"{stem}.{date_tag}-{index}.backup.{extension}"`. -/
def backupFileName (stem date_tag : String) (index : Nat) (extension : String) : String :=
  stem ++ "." ++ date_tag ++ "-" ++ natToDec index ++ ".backup." ++ extension

/-- Embedding of `_create_backup`: the clock's `%y%m%d` tag and the set of
sibling file names that already exist are parameters; the loop takes the
first index, from 0 up, whose backup name is unused, and the file is then
copied byte-for-byte (`shutil.copy2`) to that name. -/
def create_backup (path_stem fallback_stem date_tag extension : String)
    (existing : List String) : String :=
  let stem := if path_stem = "" then fallback_stem else path_stem
  backupFileName stem date_tag
    (firstFreeGo (fun i => backupFileName stem date_tag i extension) existing
      (existing.length + 1) 0)
    extension

-- Format-preserving mergers (files.py) --------------------------------------

/-- Coerce a lookup result the way the source's
`x.get(k, {})` plus `isinstance(…, dict)` guard does: a dict's entries, or
empty for an absent or non-dict value. -/
def objOrEmpty : Option JValue → Dict
  | some (.obj kvs) => kvs
  | _ => []

/-- The top-level document a merger starts from: the parse result, an
empty dict standing in for a parse failure (`none`). -/
def parsedOrEmpty (parsed : Option JValue) : JValue := parsed.getD (.obj [])

/-- Embedding of the merge step of `update_settings_file` (lines 315-337):
on parse failure start from an empty dict, then assign the owned key.  A
successfully parsed non-dict top level reaches the item assignment and
raises `TypeError` (there is no dict guard in this merger). -/
def update_settings_merge (parsed : Option JValue) (config : Dict) : Except String Dict :=
  match parsedOrEmpty parsed with
  | .obj kvs => .ok (Dict.set kvs "github.copilot.chat.customOAIModels" (.obj config))
  | _ => .error "TypeError: item assignment on a non-dict settings document"

/-- The `provider.get("options", {}).get("baseURL")` read of
`update_opencode_file`: absent options default to an empty dict, but a
present non-dict value has no `.get` and raises `AttributeError`. -/
def opencodeBaseURLOf (provider : Dict) : Except String JValue :=
  match provider.get? "options" with
  | some (.obj kvs) => .ok ((Dict.get? kvs "baseURL").getD .null)
  | some _ => .error "AttributeError: options is not a dict"
  | none => .ok .null

/-- Embedding of the merge step of `update_opencode_file` (lines 55-98). -/
def update_opencode_merge (parsed : Option JValue) (provider_id : String)
    (provider : Dict) : Except String Dict := do
  let cfg : Dict :=
    match parsedOrEmpty parsed with
    | .obj kvs => kvs
    | _ => []
  let cfg := cfg.setdefault "$schema" (.str "https://opencode.ai/config.json")
  let providers : Dict := objOrEmpty (cfg.get? "provider")
  let existing_provider : Dict := objOrEmpty (providers.get? provider_id)
  let merged_provider := existing_provider.set "npm" ((provider.get? "npm").getD .null)
  let merged_provider := merged_provider.set "name" ((provider.get? "name").getD .null)
  let existing_options : Dict := objOrEmpty (existing_provider.get? "options")
  let baseURL ← opencodeBaseURLOf provider
  let merged_options := existing_options.set "baseURL" baseURL
  let merged_provider := merged_provider.set "options" (.obj merged_options)
  let merged_provider := merged_provider.set "models" ((provider.get? "models").getD (.obj []))
  let providers := providers.set provider_id (.obj merged_provider)
  pure (cfg.set "provider" (.obj providers))

/-- Embedding of the merge step of `update_pi_file` (lines 135-167). -/
def update_pi_merge (parsed : Option JValue) (provider_id : String)
    (provider : Dict) : Dict :=
  let cfg : Dict :=
    match parsedOrEmpty parsed with
    | .obj kvs => kvs
    | _ => []
  let providers : Dict := objOrEmpty (cfg.get? "providers")
  let existing_provider : Dict := objOrEmpty (providers.get? provider_id)
  let merged_provider := existing_provider.set "baseUrl" ((provider.get? "baseUrl").getD .null)
  let merged_provider := merged_provider.set "api" ((provider.get? "api").getD .null)
  let merged_provider := merged_provider.set "apiKey" ((provider.get? "apiKey").getD .null)
  let merged_provider := merged_provider.set "models" ((provider.get? "models").getD (.arr []))
  let providers := providers.set provider_id (.obj merged_provider)
  cfg.set "providers" (.obj providers)

/-- The provider loop of `update_codex_file` (lines 230-241): non-dict
updates are skipped, and the three owned scalar fields are overwritten on
the (possibly empty) existing record. -/
def codexProvidersLoop : List (String × JValue) → Dict → Dict
  | [], providers => providers
  | (pid, pupd) :: rest, providers =>
    match pupd with
    | .obj pu =>
      let existing : Dict := objOrEmpty (providers.get? pid)
      let mp := existing.set "name" ((Dict.get? pu "name").getD .null)
      let mp := mp.set "base_url" ((Dict.get? pu "base_url").getD .null)
      let mp := mp.set "wire_api" ((Dict.get? pu "wire_api").getD .null)
      codexProvidersLoop rest (providers.set pid (.obj mp))
    | _ => codexProvidersLoop rest providers

/-- The stale test of the pruning step (lines 256-263): a profile entry is
deleted iff it is a dict whose `model_provider` is one of the generated
provider ids, its name carries the managed `lmstudio-` naming marker, and
the name is not among the freshly generated profiles. -/
def staleCodexProfile (providers_update profiles_update : Dict)
    (profile_name : String) (profile : JValue) : Bool :=
  (match profile with
   | .obj pkvs =>
     match Dict.get? pkvs "model_provider" with
     | some (.str s) => (Dict.keys providers_update).contains s
     | _ => false
   | _ => false) &&
  strStartsWith profile_name "lmstudio-" &&
  !((Dict.keys profiles_update).contains profile_name)

/-- The pruning step of `update_codex_file` (lines 253-265): delete
exactly the stale entries. -/
def pruneCodexProfiles (profiles providers_update profiles_update : Dict) : Dict :=
  profiles.filter fun kv => !(staleCodexProfile providers_update profiles_update kv.1 kv.2)

/-- The profile overlay loop of `update_codex_file` (lines 267-277). -/
def codexProfilesLoop : List (String × JValue) → Dict → Dict
  | [], profiles => profiles
  | (pname, pupd) :: rest, profiles =>
    match pupd with
    | .obj pu =>
      let existing : Dict := objOrEmpty (profiles.get? pname)
      let mp := existing.set "model" ((Dict.get? pu "model").getD .null)
      let mp := mp.set "model_provider" ((Dict.get? pu "model_provider").getD .null)
      codexProfilesLoop rest (profiles.set pname (.obj mp))
    | _ => codexProfilesLoop rest profiles

/-- Embedding of the merge step of `update_codex_file` (lines 205-281). -/
def update_codex_merge (parsed : Option JValue) (codex_config : Dict) :
    Except String Dict := do
  let merged : Dict :=
    match parsedOrEmpty parsed with
    | .obj kvs => kvs
    | _ => []
  let providers : Dict := objOrEmpty (merged.get? "model_providers")
  let providers_update : Dict ←
    match codex_config.get? "model_providers" with
    | some (.obj kvs) =>
      if kvs.isEmpty then
        Except.error "Invalid generated Codex config: missing model_providers"
      else pure kvs
    | _ => Except.error "Invalid generated Codex config: missing model_providers"
  let providers := codexProvidersLoop providers_update providers
  let merged := merged.set "model_providers" (.obj providers)
  let profiles : Dict := objOrEmpty (merged.get? "profiles")
  let profiles_update : Dict := objOrEmpty (codex_config.get? "profiles")
  let profiles := pruneCodexProfiles profiles providers_update profiles_update
  let profiles := codexProfilesLoop profiles_update profiles
  pure (merged.set "profiles" (.obj profiles))

-- The full per-target update flow for the provider-map target ---------------

/-- Observable outcome of one `update_opencode_file` run up to the write:
the serialized merge result, the gate's decision, whether the operator was
prompted, and whether the file would be rewritten and backed up. -/
structure UpdateOutcome where
  newContent : String
  decision : Decision
  prompted : Bool
  wrote : Bool
  backedUp : Bool

/-- Embedding of `update_opencode_file` (lines 47-118) up to the
filesystem write: read and parse outcomes are inputs, the merge and the
confirm gate run exactly as in the source, a `cancel` decision exits
before any backup or write, and a backup happens only for `apply` on an
existing file. -/
def update_opencode_core (fileExists : Bool) (old_content : String)
    (parsed : Option JValue) (provider_id : String) (provider : Dict)
    (response : String) : Except String UpdateOutcome := do
  let indent := if old_content = "" then 2 else detect_indentation old_content
  let merged ← update_opencode_merge parsed provider_id provider
  let new_content := jsonDumps (.obj merged) indent
  let conf := show_diff_and_confirm old_content new_content response
  pure
    { newContent := new_content
      decision := conf.decision
      prompted := conf.prompted
      wrote := decide (conf.decision = Decision.apply)
      backedUp := decide (conf.decision = Decision.apply) && fileExists }

-- Claim C4 -------------------------------------------------------------------

/-- Claim C4: for all criteria with the tools criterion and the vision
criterion in their excluding variant (the CLI maps `--no-tools` and
`--no-vision` to the string `exclude`), no model returned by the catalog
filter has an effective tools or vision flag, where the effective flag is
`model_supports_tool_calling` (resp. `model_supports_vision`) for
`llm`-kind models and false for every other kind. -/
theorem filter_exclude_has_no_tools_or_vision (models : List ModelInfo)
    (min_context : Option Int) (m : ModelInfo)
    (hm : m ∈ filter_models models min_context "exclude" "exclude") :
    filterHasTools m = false ∧ filterHasVision m = false := by
  rw [filter_models, List.mem_filter] at hm
  obtain ⟨-, h⟩ := hm
  rw [model_matches_filters.eq_def] at h
  simp only [Bool.and_eq_true, Bool.not_eq_true', Bool.and_eq_false_iff] at h
  obtain ⟨⟨⟨-, ht⟩, -⟩, hv⟩ := h
  constructor
  · rcases ht with ht | ht
    · simp at ht
    · exact ht
  · rcases hv with hv | hv
    · simp at hv
    · exact hv

/-- Witness for C4: a toolless, visionless llm model passes the excluding
filter and indeed has both effective flags false. -/
theorem filter_exclude_has_no_tools_or_vision_witness :
    filterHasTools ⟨some "m", some "llm", none, none⟩ = false ∧
      filterHasVision ⟨some "m", some "llm", none, none⟩ = false :=
  filter_exclude_has_no_tools_or_vision [⟨some "m", some "llm", none, none⟩] none
    ⟨some "m", some "llm", none, none⟩ (List.mem_singleton_self _)

-- Claim C5 -------------------------------------------------------------------

/-- Claim C5: a descriptor with an unknown (absent) `max_context_length`
yields 8192 in every consuming schema: `maxInputTokens`/`maxOutputTokens`
of the editor-settings entry, `limit.context`/`limit.output` of the
provider-map entry, and `contextWindow`/`maxTokens` of the provider-list
entry. -/
theorem unknown_context_defaults_to_8192 (m : ModelInfo) (url model_id : String)
    (h : m.max_context_length = none) :
    (copilotEntry url model_id m).get? "maxInputTokens" = some (.int 8192) ∧
    (copilotEntry url model_id m).get? "maxOutputTokens" = some (.int 8192) ∧
    (objOrEmpty ((opencodeModelEntry model_id m).get? "limit")).get? "context" =
      some (.int 8192) ∧
    (objOrEmpty ((opencodeModelEntry model_id m).get? "limit")).get? "output" =
      some (.int 8192) ∧
    (piModelEntry model_id m).get? "contextWindow" = some (.int 8192) ∧
    (piModelEntry model_id m).get? "maxTokens" = some (.int 8192) := by
  have hc : maxContextOf m = .int 8192 := by simp [maxContextOf, h]
  cases hv : model_supports_vision m <;>
    simp [copilotEntry, opencodeModelEntry, piModelEntry, hc, hv,
      Dict.get?, Dict.set, objOrEmpty]

/-- Witness for C5: a concrete descriptor without a context length. -/
theorem unknown_context_defaults_to_8192_witness :
    (copilotEntry "u" "m" ⟨some "m", some "llm", none, none⟩).get? "maxInputTokens" =
        some (.int 8192) ∧
      (copilotEntry "u" "m" ⟨some "m", some "llm", none, none⟩).get? "maxOutputTokens" =
        some (.int 8192) ∧
      (objOrEmpty ((opencodeModelEntry "m" ⟨some "m", some "llm", none, none⟩).get?
          "limit")).get? "context" = some (.int 8192) ∧
      (objOrEmpty ((opencodeModelEntry "m" ⟨some "m", some "llm", none, none⟩).get?
          "limit")).get? "output" = some (.int 8192) ∧
      (piModelEntry "m" ⟨some "m", some "llm", none, none⟩).get? "contextWindow" =
        some (.int 8192) ∧
      (piModelEntry "m" ⟨some "m", some "llm", none, none⟩).get? "maxTokens" =
        some (.int 8192) :=
  unknown_context_defaults_to_8192 ⟨some "m", some "llm", none, none⟩ "u" "m" rfl

-- Claim C6 -------------------------------------------------------------------

theorem copilotBuild_eq_nil (url : String) (ms : List ModelInfo) (acc : Dict) :
    copilotBuild url ms acc = [] ↔ acc = [] ∧ ms.filter survivesLLM = [] := by
  induction ms generalizing acc with
  | nil => simp [copilotBuild]
  | cons m rest ih =>
    by_cases htype : m.type = some "llm"
    · rw [copilotBuild, if_neg (by simp [htype])]
      cases hid : get_model_id m with
      | none =>
        simp [ih, List.filter_cons, survivesLLM, htype, hid]
      | some id =>
        by_cases hempty : id = ""
        · subst hempty
          simp [ih, List.filter_cons, survivesLLM, htype, hid]
        · have hs : survivesLLM m = true := by simp [survivesLLM, htype, hid, hempty]
          simp [copilotBuild, htype, hid, hempty, ih, List.filter_cons, hs,
            Dict.set_ne_nil]
    · rw [copilotBuild, if_pos (by simp [htype])]
      simp [ih, List.filter_cons, survivesLLM, htype]

theorem opencodeBuild_eq_nil (ms : List ModelInfo) (acc : Dict) :
    opencodeBuild ms acc = [] ↔ acc = [] ∧ ms.filter survivesLLM = [] := by
  induction ms generalizing acc with
  | nil => simp [opencodeBuild]
  | cons m rest ih =>
    by_cases htype : m.type = some "llm"
    · rw [opencodeBuild, if_neg (by simp [htype])]
      cases hid : get_model_id m with
      | none =>
        simp [ih, List.filter_cons, survivesLLM, htype, hid]
      | some id =>
        by_cases hempty : id = ""
        · subst hempty
          simp [ih, List.filter_cons, survivesLLM, htype, hid]
        · have hs : survivesLLM m = true := by simp [survivesLLM, htype, hid, hempty]
          simp [opencodeBuild, htype, hid, hempty, ih, List.filter_cons, hs,
            Dict.set_ne_nil]
    · rw [opencodeBuild, if_pos (by simp [htype])]
      simp [ih, List.filter_cons, survivesLLM, htype]

theorem piBuild_eq_nil (ms : List ModelInfo) :
    piBuild ms = [] ↔ ms.filter survivesLLM = [] := by
  induction ms with
  | nil => simp [piBuild]
  | cons m rest ih =>
    by_cases htype : m.type = some "llm"
    · rw [piBuild, if_neg (by simp [htype])]
      cases hid : get_model_id m with
      | none =>
        simp [ih, List.filter_cons, survivesLLM, htype, hid]
      | some id =>
        by_cases hempty : id = ""
        · subst hempty
          simp [ih, List.filter_cons, survivesLLM, htype, hid]
        · have hs : survivesLLM m = true := by simp [survivesLLM, htype, hid, hempty]
          simp [hempty, List.filter_cons, hs]
    · rw [piBuild, if_pos (by simp [htype])]
      simp [ih, List.filter_cons, survivesLLM, htype]

theorem codexCollectIds_eq_nil (ms : List ModelInfo) :
    codexCollectIds ms = [] ↔ ms.filter survivesLLM = [] := by
  induction ms with
  | nil => simp [codexCollectIds]
  | cons m rest ih =>
    by_cases htype : m.type = some "llm"
    · rw [codexCollectIds, if_neg (by simp [htype])]
      cases hid : get_model_id m with
      | none =>
        simp [ih, List.filter_cons, survivesLLM, htype, hid]
      | some id =>
        by_cases hempty : id = ""
        · subst hempty
          simp [ih, List.filter_cons, survivesLLM, htype, hid]
        · have hs : survivesLLM m = true := by simp [survivesLLM, htype, hid, hempty]
          simp [hempty, List.filter_cons, hs]
    · rw [codexCollectIds, if_pos (by simp [htype])]
      simp [ih, List.filter_cons, survivesLLM, htype]

theorem get?_isSome_of_mem_keys (d : Dict) (k : String) (h : k ∈ d.keys) :
    (d.get? k).isSome := by
  induction d with
  | nil => simp [Dict.keys] at h
  | cons hd tl ih =>
    by_cases hk : hd.1 = k
    · simp [Dict.get?, hk]
    · rcases List.mem_cons.mp h with h1 | h1
      · exact absurd h1.symm hk
      · simp only [Dict.get?, if_neg hk]
        exact ih h1

theorem filterMap_ne_nil {α β : Type _} (l : List α) (f : α → Option β)
    (hl : l ≠ []) (hf : ∀ a ∈ l, (f a).isSome) : l.filterMap f ≠ [] := by
  cases l with
  | nil => exact absurd rfl hl
  | cons a t =>
    obtain ⟨b, hb⟩ := Option.isSome_iff_exists.mp (hf a (List.mem_cons_self a t))
    simp [List.filterMap_cons, hb]

theorem orderCopilot_ne_nil (config : Dict) (h : config ≠ []) :
    orderCopilot config ≠ [] := by
  have hkeys : config.keys ≠ [] := by
    cases config with
    | nil => exact absurd rfl h
    | cons hd tl => simp [Dict.keys]
  have hperm : List.Perm (pySorted config.keys) config.keys := List.perm_insertionSort _ _
  apply filterMap_ne_nil
  · intro hnil
    rw [hnil] at hperm
    exact hkeys (List.perm_nil.mp hperm.symm)
  · intro k hk
    have hmem : k ∈ config.keys := hperm.mem_iff.mp hk
    have hsome := get?_isSome_of_mem_keys config k hmem
    cases hg : config.get? k with
    | none => rw [hg] at hsome; simp at hsome
    | some v => simp [hg]

theorem orderByKey_ne_nil (config : Dict) (h : config ≠ []) :
    orderByKey config ≠ [] := by
  have hkeys : config.keys ≠ [] := by
    cases config with
    | nil => exact absurd rfl h
    | cons hd tl => simp [Dict.keys]
  have hperm : List.Perm (pySorted config.keys) config.keys := List.perm_insertionSort _ _
  apply filterMap_ne_nil
  · intro hnil
    rw [hnil] at hperm
    exact hkeys (List.perm_nil.mp hperm.symm)
  · intro k hk
    have hmem : k ∈ config.keys := hperm.mem_iff.mp hk
    have hsome := get?_isSome_of_mem_keys config k hmem
    cases hg : config.get? k with
    | none => rw [hg] at hsome; simp at hsome
    | some v => simp [hg]

theorem insertionSort_ne_nil {α : Type _} (r : α → α → Prop) [DecidableRel r]
    (l : List α) (h : l ≠ []) : l.insertionSort r ≠ [] := by
  have hperm : List.Perm (l.insertionSort r) l := List.perm_insertionSort _ _
  intro hnil
  rw [hnil] at hperm
  exact h (List.perm_nil.mp hperm.symm)

theorem sortedDedup_ne_nil (ids : List String) (h : ids ≠ []) :
    sortedDedup ids ≠ [] := by
  unfold sortedDedup pySorted
  apply insertionSort_ne_nil
  simpa [List.dedup_eq_nil] using h

theorem generate_codex_profiles_ne_nil (ids : List String) (pid : String)
    (h : ids ≠ []) : generate_codex_profiles ids pid ≠ [] := by
  unfold generate_codex_profiles
  cases hsd : sortedDedup ids with
  | nil => exact absurd hsd (sortedDedup_ne_nil ids h)
  | cons a t => simp [codexProfilesGo]

/-- Claim C6: each generator fails with the empty-result error (the spec's
`EmptyResultError`) exactly when zero descriptors survive its pipeline
(criteria filter, the non-llm discard, the empty/missing-id discard), and
a successful run never carries an empty models or profiles section. -/
theorem generators_fail_iff_no_survivors (models : List ModelInfo)
    (url base_url pid pname : String) (mc : Option Int) (tf vf : String) :
    (generate_copilot_config models url mc tf vf =
        .error "No LLM models matched the selected filters." ↔
      ((filter_models models mc tf vf).filter survivesLLM) = []) ∧
    (generate_opencode_provider models base_url pid pname mc tf vf =
        .error "No LLM models matched the selected filters." ↔
      ((filter_models models mc tf vf).filter survivesLLM) = []) ∧
    (generate_pi_provider models base_url pid mc tf vf =
        .error "No LLM models matched the selected filters." ↔
      ((filter_models models mc tf vf).filter survivesLLM) = []) ∧
    (generate_codex_config models base_url pid pname mc tf vf =
        .error "No LLM models matched the selected filters." ↔
      ((filter_models models mc tf vf).filter survivesLLM) = []) ∧
    (∀ c, generate_copilot_config models url mc tf vf = .ok c → c ≠ []) ∧
    (∀ pr, generate_opencode_provider models base_url pid pname mc tf vf = .ok pr →
      ∃ mm, Dict.get? pr.2 "models" = some (.obj mm) ∧ mm ≠ []) ∧
    (∀ pr, generate_pi_provider models base_url pid mc tf vf = .ok pr →
      ∃ ml, Dict.get? pr.2 "models" = some (.arr ml) ∧ ml ≠ []) ∧
    (∀ c, generate_codex_config models base_url pid pname mc tf vf = .ok c →
      ∃ ps, Dict.get? c "profiles" = some (.obj ps) ∧ ps ≠ []) := by
  set ms := filter_models models mc tf vf with hms
  refine ⟨?_, ?_, ?_, ?_, ?_, ?_, ?_, ?_⟩
  · by_cases hc : (copilotBuild url ms []).isEmpty
    · have hnil := (List.isEmpty_iff.mp hc)
      have := (copilotBuild_eq_nil url ms []).mp hnil
      simp [generate_copilot_config, hc, this.2]
    · have hne : ¬(ms.filter survivesLLM = []) := by
        intro hf
        exact hc (List.isEmpty_iff.mpr ((copilotBuild_eq_nil url ms []).mpr ⟨rfl, hf⟩))
      simp [generate_copilot_config, hc, hne]
  · by_cases hc : (opencodeBuild ms []).isEmpty
    · have hnil := (List.isEmpty_iff.mp hc)
      have := (opencodeBuild_eq_nil ms []).mp hnil
      simp [generate_opencode_provider, hc, this.2]
    · have hne : ¬(ms.filter survivesLLM = []) := by
        intro hf
        exact hc (List.isEmpty_iff.mpr ((opencodeBuild_eq_nil ms []).mpr ⟨rfl, hf⟩))
      simp [generate_opencode_provider, hc, hne]
  · by_cases hc : (piBuild ms).isEmpty
    · have hnil := (List.isEmpty_iff.mp hc)
      simp [generate_pi_provider, hc, (piBuild_eq_nil ms).mp hnil]
    · have hne : ¬(ms.filter survivesLLM = []) := by
        intro hf
        exact hc (List.isEmpty_iff.mpr ((piBuild_eq_nil ms).mpr hf))
      simp [generate_pi_provider, hc, hne]
  · by_cases hc : (codexCollectIds ms).isEmpty
    · have hnil := (List.isEmpty_iff.mp hc)
      simp [generate_codex_config, hc, (codexCollectIds_eq_nil ms).mp hnil]
    · have hne : ¬(ms.filter survivesLLM = []) := by
        intro hf
        exact hc (List.isEmpty_iff.mpr ((codexCollectIds_eq_nil ms).mpr hf))
      simp [generate_codex_config, hc, hne]
  · intro c hok
    by_cases hc : (copilotBuild url ms []).isEmpty
    · simp [generate_copilot_config, hc] at hok
    · simp only [generate_copilot_config, ← hms, if_neg hc, Except.ok.injEq] at hok
      subst hok
      exact orderCopilot_ne_nil _ (fun hn => hc (List.isEmpty_iff.mpr hn))
  · intro pr hok
    by_cases hc : (opencodeBuild ms []).isEmpty
    · simp [generate_opencode_provider, hc] at hok
    · simp only [generate_opencode_provider, ← hms, if_neg hc, Except.ok.injEq] at hok
      subst hok
      refine ⟨orderByKey (opencodeBuild ms []), by simp [Dict.get?], ?_⟩
      exact orderByKey_ne_nil _ (fun hn => hc (List.isEmpty_iff.mpr hn))
  · intro pr hok
    by_cases hc : (piBuild ms).isEmpty
    · simp [generate_pi_provider, hc] at hok
    · simp only [generate_pi_provider, ← hms, if_neg hc, Except.ok.injEq] at hok
      subst hok
      refine ⟨((piBuild ms).insertionSort piEntryLe).map JValue.obj, by simp [Dict.get?], ?_⟩
      have : (piBuild ms).insertionSort piEntryLe ≠ [] :=
        insertionSort_ne_nil _ _ (fun hn => hc (List.isEmpty_iff.mpr hn))
      simpa using this
  · intro c hok
    by_cases hc : (codexCollectIds ms).isEmpty
    · simp [generate_codex_config, hc] at hok
    · simp only [generate_codex_config, ← hms, if_neg hc, Except.ok.injEq] at hok
      subst hok
      refine ⟨generate_codex_profiles (codexCollectIds ms) pid, by simp [Dict.get?], ?_⟩
      exact generate_codex_profiles_ne_nil _ _ (fun hn => hc (List.isEmpty_iff.mpr hn))

-- Claim C3 -------------------------------------------------------------------

/-- Claim C3: the provider-map merge never deletes a top-level key the
tool does not own (the tool owns only `$schema` and `provider`): any other
key keeps exactly its old value in the merged document. -/
theorem opencode_merge_preserves_unowned_keys (cfg : Dict) (pid : String)
    (provider : Dict) (m : Dict) (k : String)
    (hk1 : k ≠ "provider") (hk2 : k ≠ "$schema")
    (h : update_opencode_merge (some (.obj cfg)) pid provider = .ok m) :
    m.get? k = cfg.get? k := by
  cases hb : opencodeBaseURLOf provider with
  | error e => simp [update_opencode_merge, hb] at h
  | ok u =>
    simp only [update_opencode_merge, parsedOrEmpty, Option.getD_some, hb,
      bind, Except.bind, pure, Except.pure, Except.ok.injEq] at h
    subst h
    rw [Dict.get?_set_ne _ _ _ _ (Ne.symm hk1),
      Dict.get?_setdefault_ne _ _ _ _ (Ne.symm hk2)]

/-- Witness for C3: merging an empty generated payload into a document
holding the unrelated key `foo` keeps `"foo": 1` unchanged. -/
theorem opencode_merge_preserves_unowned_keys_witness :
    Dict.get?
        [("foo", JValue.int 1),
         ("$schema", JValue.str "https://opencode.ai/config.json"),
         ("provider",
          JValue.obj
            [("lmstudio",
              JValue.obj
                [("npm", JValue.null), ("name", JValue.null),
                 ("options", JValue.obj [("baseURL", JValue.null)]),
                 ("models", JValue.obj [])])])]
        "foo" =
      Dict.get? [("foo", JValue.int 1)] "foo" :=
  opencode_merge_preserves_unowned_keys [("foo", JValue.int 1)] "lmstudio" [] _ "foo"
    (by decide) (by decide) rfl

-- Claim C2 -------------------------------------------------------------------

theorem Dict.get?_eq_none (d : Dict) (k : String) (h : k ∉ Dict.keys d) :
    Dict.get? d k = none := by
  induction d with
  | nil => rfl
  | cons hd tl ih =>
    simp only [Dict.keys, List.map_cons, List.mem_cons, not_or] at h
    obtain ⟨h1, h2⟩ := h
    rw [Dict.get?, if_neg (fun e => h1 e.symm)]
    exact ih (by simpa [Dict.keys] using h2)

theorem Dict.keys_filter_subset (d : Dict) (p : String × JValue → Bool) :
    Dict.keys (d.filter p) ⊆ Dict.keys d := by
  intro k hk
  simp only [Dict.keys, List.mem_map] at hk ⊢
  obtain ⟨kv, hmem, hfst⟩ := hk
  exact ⟨kv, List.mem_of_mem_filter hmem, hfst⟩

theorem Dict.get?_filter (d : Dict) (p : String × JValue → Bool)
    (hnd : (Dict.keys d).Nodup) (n : String) (v : JValue)
    (h : Dict.get? d n = some v) :
    Dict.get? (d.filter p) n = if p (n, v) then some v else none := by
  induction d with
  | nil => simp [Dict.get?] at h
  | cons hd tl ih =>
    obtain ⟨k, w⟩ := hd
    simp only [Dict.keys, List.map_cons, List.nodup_cons] at hnd
    obtain ⟨hk_notin, hnd'⟩ := hnd
    by_cases hk : k = n
    · subst hk
      rw [Dict.get?, if_pos rfl] at h
      cases h
      rw [List.filter_cons]
      by_cases hp : p (k, v)
      · simp [hp, Dict.get?]
      · have hnone : Dict.get? (tl.filter p) k = none := by
          apply Dict.get?_eq_none
          intro hmem
          exact hk_notin (by simpa [Dict.keys] using Dict.keys_filter_subset tl p hmem)
        simp only [hp, Bool.false_eq_true, if_false]
        rw [hnone]
    · rw [Dict.get?, if_neg hk] at h
      rw [List.filter_cons]
      by_cases hp : p (k, w)
      · simp only [hp, if_pos]
        rw [Dict.get?, if_neg hk]
        exact ih (by simpa [Dict.keys] using hnd') h
      · simp only [hp, Bool.false_eq_true, if_false]
        exact ih (by simpa [Dict.keys] using hnd') h

theorem staleCodexProfile_iff (providers_update profiles_update : Dict)
    (n : String) (v : JValue) :
    staleCodexProfile providers_update profiles_update n v = true ↔
      ((∃ pkvs s, v = .obj pkvs ∧ Dict.get? pkvs "model_provider" = some (.str s) ∧
          s ∈ Dict.keys providers_update) ∧
        strStartsWith n "lmstudio-" = true ∧ n ∉ Dict.keys profiles_update) := by
  rw [staleCodexProfile.eq_def]
  have hobjne : ∀ w : JValue, (∀ e : List (String × JValue), w ≠ .obj e) →
      ¬∃ pkvs s, w = .obj pkvs ∧ Dict.get? pkvs "model_provider" = some (.str s) ∧
        s ∈ Dict.keys providers_update := by
    rintro w hw ⟨pkvs, s, heq, -, -⟩
    exact hw pkvs heq
  cases v with
  | obj pkvs =>
    cases hmp : Dict.get? pkvs "model_provider" with
    | none =>
      constructor
      · intro h; simp [hmp] at h
      · rintro ⟨⟨pkvs2, s2, heq, hmp2, -⟩, -, -⟩
        injection heq with heq2
        subst heq2
        rw [hmp] at hmp2
        exact Option.noConfusion hmp2
    | some mv =>
      cases mv with
      | str s =>
        simp only [hmp, Bool.and_eq_true, Bool.not_eq_true']
        constructor
        · rintro ⟨⟨h1, h2⟩, h3⟩
          exact ⟨⟨pkvs, s, rfl, hmp, by simpa using h1⟩, h2,
            fun hmem => absurd hmem (by simpa using h3)⟩
        · rintro ⟨⟨pkvs2, s2, heq, hmp2, hmem⟩, h2, h3⟩
          injection heq with heq2
          subst heq2
          rw [hmp] at hmp2
          injection hmp2 with hmp3
          injection hmp3 with hmp4
          subst hmp4
          exact ⟨⟨by simpa using hmem, h2⟩, by simpa using h3⟩
      | null =>
        constructor
        · intro h; simp [hmp] at h
        · rintro ⟨⟨pkvs2, s2, heq, hmp2, -⟩, -, -⟩
          injection heq with heq2
          subst heq2
          rw [hmp] at hmp2
          injection hmp2 with hmp3
          exact JValue.noConfusion hmp3
      | bool b =>
        constructor
        · intro h; simp [hmp] at h
        · rintro ⟨⟨pkvs2, s2, heq, hmp2, -⟩, -, -⟩
          injection heq with heq2
          subst heq2
          rw [hmp] at hmp2
          injection hmp2 with hmp3
          exact JValue.noConfusion hmp3
      | int i =>
        constructor
        · intro h; simp [hmp] at h
        · rintro ⟨⟨pkvs2, s2, heq, hmp2, -⟩, -, -⟩
          injection heq with heq2
          subst heq2
          rw [hmp] at hmp2
          injection hmp2 with hmp3
          exact JValue.noConfusion hmp3
      | arr xs =>
        constructor
        · intro h; simp [hmp] at h
        · rintro ⟨⟨pkvs2, s2, heq, hmp2, -⟩, -, -⟩
          injection heq with heq2
          subst heq2
          rw [hmp] at hmp2
          injection hmp2 with hmp3
          exact JValue.noConfusion hmp3
      | obj o =>
        constructor
        · intro h; simp [hmp] at h
        · rintro ⟨⟨pkvs2, s2, heq, hmp2, -⟩, -, -⟩
          injection heq with heq2
          subst heq2
          rw [hmp] at hmp2
          injection hmp2 with hmp3
          exact JValue.noConfusion hmp3
  | null =>
    constructor
    · intro h; simp at h
    · rintro ⟨hex, -, -⟩
      exact absurd hex (hobjne _ (fun e he => JValue.noConfusion he))
  | bool b =>
    constructor
    · intro h; simp at h
    · rintro ⟨hex, -, -⟩
      exact absurd hex (hobjne _ (fun e he => JValue.noConfusion he))
  | int i =>
    constructor
    · intro h; simp at h
    · rintro ⟨hex, -, -⟩
      exact absurd hex (hobjne _ (fun e he => JValue.noConfusion he))
  | str s =>
    constructor
    · intro h; simp at h
    · rintro ⟨hex, -, -⟩
      exact absurd hex (hobjne _ (fun e he => JValue.noConfusion he))
  | arr xs =>
    constructor
    · intro h; simp at h
    · rintro ⟨hex, -, -⟩
      exact absurd hex (hobjne _ (fun e he => JValue.noConfusion he))

/-- Claim C2: pruning deletes exactly the profiles that are dicts whose
`model_provider` is one of the managed (generated) provider ids, whose
name carries the `lmstudio-` naming marker, and whose name is absent from
the freshly generated profile set; in particular a profile whose name does
not start with the marker is never deleted, whatever the current model
set. -/
theorem codex_prune_characterization (profiles providers_update profiles_update : Dict)
    (hnd : (Dict.keys profiles).Nodup) (n : String) (v : JValue)
    (hget : Dict.get? profiles n = some v) :
    (Dict.get? (pruneCodexProfiles profiles providers_update profiles_update) n =
      if staleCodexProfile providers_update profiles_update n v then none else some v) ∧
    (staleCodexProfile providers_update profiles_update n v = true ↔
      ((∃ pkvs s, v = .obj pkvs ∧ Dict.get? pkvs "model_provider" = some (.str s) ∧
          s ∈ Dict.keys providers_update) ∧
        strStartsWith n "lmstudio-" = true ∧ n ∉ Dict.keys profiles_update)) ∧
    (strStartsWith n "lmstudio-" = false →
      Dict.get? (pruneCodexProfiles profiles providers_update profiles_update) n =
        some v) := by
  have hchar :
      Dict.get? (pruneCodexProfiles profiles providers_update profiles_update) n =
        if staleCodexProfile providers_update profiles_update n v then none
        else some v := by
    rw [pruneCodexProfiles, Dict.get?_filter profiles _ hnd n v hget]
    cases hs : staleCodexProfile providers_update profiles_update n v <;> simp [hs]
  refine ⟨hchar, staleCodexProfile_iff providers_update profiles_update n v, ?_⟩
  intro hpre
  have hs : staleCodexProfile providers_update profiles_update n v = false := by
    rw [staleCodexProfile.eq_def, hpre]
    simp
  rw [hchar, hs]
  simp

/-- Witness for C2: a user-authored profile whose name lacks the naming
marker survives pruning even though its provider is managed and the
generated profile set is empty. -/
theorem codex_prune_characterization_witness :
    (Dict.get?
        (pruneCodexProfiles
          [("mine", JValue.obj [("model_provider", JValue.str "lmstudio_local")])]
          [("lmstudio_local", JValue.obj [])] []) "mine" =
      if staleCodexProfile [("lmstudio_local", JValue.obj [])] [] "mine"
          (JValue.obj [("model_provider", JValue.str "lmstudio_local")]) then none
      else some (JValue.obj [("model_provider", JValue.str "lmstudio_local")])) ∧
    (staleCodexProfile [("lmstudio_local", JValue.obj [])] [] "mine"
        (JValue.obj [("model_provider", JValue.str "lmstudio_local")]) = true ↔
      ((∃ pkvs s,
          JValue.obj [("model_provider", JValue.str "lmstudio_local")] = .obj pkvs ∧
          Dict.get? pkvs "model_provider" = some (.str s) ∧
          s ∈ Dict.keys [("lmstudio_local", JValue.obj [])]) ∧
        strStartsWith "mine" "lmstudio-" = true ∧
        "mine" ∉ Dict.keys ([] : Dict))) ∧
    (strStartsWith "mine" "lmstudio-" = false →
      Dict.get?
        (pruneCodexProfiles
          [("mine", JValue.obj [("model_provider", JValue.str "lmstudio_local")])]
          [("lmstudio_local", JValue.obj [])] []) "mine" =
        some (JValue.obj [("model_provider", JValue.str "lmstudio_local")])) :=
  codex_prune_characterization
    [("mine", JValue.obj [("model_provider", JValue.str "lmstudio_local")])]
    [("lmstudio_local", JValue.obj [])] [] (by decide) "mine"
    (JValue.obj [("model_provider", JValue.str "lmstudio_local")]) rfl

-- Claim C9 -------------------------------------------------------------------

theorem natToDec_data_inj (a b : Nat)
    (h : (natToDec a).data = (natToDec b).data) : a = b := by
  have ha := decValue_natToDec a
  have hb := decValue_natToDec b
  rw [h, hb] at ha
  omega

theorem exists_fresh_index (f : Nat → String) (hf : Function.Injective f)
    (used : List String) : ∃ j, j ≤ used.length ∧ f j ∉ used := by
  by_contra hcon
  push_neg at hcon
  have hsub : (Finset.range (used.length + 1)).image f ⊆ used.toFinset := by
    intro x hx
    simp only [Finset.mem_image, Finset.mem_range] at hx
    obtain ⟨j, hj, rfl⟩ := hx
    exact List.mem_toFinset.mpr (hcon j (by omega))
  have hcard := Finset.card_le_card hsub
  rw [Finset.card_image_of_injective _ hf, Finset.card_range] at hcard
  have hlen := List.toFinset_card_le used
  omega

theorem firstFreeGo_spec (f : Nat → String) (used : List String) :
    ∀ (fuel k : Nat), (∃ j, k ≤ j ∧ j < k + fuel ∧ f j ∉ used) →
      f (firstFreeGo f used fuel k) ∉ used ∧ k ≤ firstFreeGo f used fuel k ∧
        ∀ j, k ≤ j → j < firstFreeGo f used fuel k → f j ∈ used := by
  intro fuel
  induction fuel with
  | zero =>
    rintro k ⟨j, h1, h2, -⟩
    exact absurd h2 (by omega)
  | succ fuel ih =>
    rintro k ⟨j, h1, h2, h3⟩
    rw [firstFreeGo]
    by_cases hk : f k ∈ used
    · rw [if_pos hk]
      have hj' : k + 1 ≤ j := by
        rcases Nat.eq_or_lt_of_le h1 with rfl | hlt
        · exact absurd hk h3
        · omega
      obtain ⟨ha, hb, hc⟩ := ih (k + 1) ⟨j, hj', by omega, h3⟩
      refine ⟨ha, by omega, ?_⟩
      intro j2 hj2 hlt
      rcases Nat.eq_or_lt_of_le hj2 with rfl | hj2'
      · exact hk
      · exact hc j2 (by omega) hlt
    · rw [if_neg hk]
      exact ⟨hk, le_refl k, fun j2 hj2 hlt => absurd hlt (by omega)⟩

theorem firstFreeGo_full (f : Nat → String) (hf : Function.Injective f)
    (used : List String) :
    f (firstFreeGo f used (used.length + 1) 0) ∉ used ∧
      ∀ j, j < firstFreeGo f used (used.length + 1) 0 → f j ∈ used := by
  obtain ⟨j, hj, hfree⟩ := exists_fresh_index f hf used
  obtain ⟨h1, -, h3⟩ :=
    firstFreeGo_spec f used (used.length + 1) 0 ⟨j, by omega, by omega, hfree⟩
  exact ⟨h1, fun j2 hlt => h3 j2 (by omega) hlt⟩

theorem backupFileName_inj (stem date_tag extension : String) :
    Function.Injective (fun i => backupFileName stem date_tag i extension) := by
  intro a b h
  have hd := congrArg String.data h
  simp only [backupFileName, String.data_append, List.append_assoc] at hd
  have h1 := List.append_cancel_left hd
  have h2 := List.append_cancel_left h1
  have h3 := List.append_cancel_left h2
  have h4 := List.append_cancel_left h3
  exact natToDec_data_inj a b (List.append_cancel_right h4)

/-- Claim C9 counterexample: on a day tagged `250924` with no existing
backups, the backup for `settings.json` is created at
`settings.250924-0.backup.json` (date and index separated by a dash), not
at `settings.250924.0.backup.json` as the claim's naming scheme states. -/
theorem backup_name_dash_counterexample :
    create_backup "settings" "settings" "250924" "json" [] =
        "settings.250924-0.backup.json" ∧
      "settings.250924-0.backup.json" ≠ "settings.250924.0.backup.json" :=
  ⟨rfl, by decide⟩

/-- Claim C9 (amended): when the target file exists and the decision is
`apply`, the file is copied byte-for-byte to a sibling named
`<stem>.<YYMMDD>-<index>.backup.<ext>` where `<index>` starts at 0 and
increments until an unused name is found: the chosen name is unused, and
every smaller index's name was already taken. -/
theorem create_backup_least_unused_index
    (path_stem fallback_stem date_tag extension : String) (existing : List String) :
    create_backup path_stem fallback_stem date_tag extension existing ∉ existing ∧
      ∃ i,
        create_backup path_stem fallback_stem date_tag extension existing =
          backupFileName (if path_stem = "" then fallback_stem else path_stem)
            date_tag i extension ∧
        ∀ j, j < i →
          backupFileName (if path_stem = "" then fallback_stem else path_stem)
            date_tag j extension ∈ existing := by
  obtain ⟨hfree, hmin⟩ :=
    firstFreeGo_full
      (fun i =>
        backupFileName (if path_stem = "" then fallback_stem else path_stem)
          date_tag i extension)
      (backupFileName_inj _ _ _) existing
  exact ⟨hfree, _, rfl, hmin⟩

-- Claim C10 ------------------------------------------------------------------

theorem natToDec_data_ne_nil (n : Nat) : (natToDec n).data ≠ [] := by
  simpa [natToDec] using natDecChars_ne_nil n

theorem append_natToDec_inj (pre : String) (a b : Nat)
    (h : pre ++ natToDec a = pre ++ natToDec b) : a = b := by
  have hd := congrArg String.data h
  simp only [String.data_append] at hd
  exact natToDec_data_inj a b (List.append_cancel_left hd)

theorem candName_inj (base : String) : Function.Injective (candName base) := by
  intro a b h
  match a, b with
  | 0, 0 => rfl
  | 0, k + 1 =>
    exfalso
    have hl := congrArg String.length h
    simp only [candName, String.length_append] at hl
    have := natToDec_length_pos (k + 2)
    omega
  | k + 1, 0 =>
    exfalso
    have hl := congrArg String.length h
    simp only [candName, String.length_append] at hl
    have := natToDec_length_pos (k + 2)
    omega
  | a + 1, b + 1 =>
    have : a + 2 = b + 2 := append_natToDec_inj (base ++ "-") _ _ h
    omega

/-- The per-call contract of `codex_profile_name_for_model`: the returned
name was free, is recorded into the used set, and starts with the
prefix. -/
theorem codex_profile_name_spec (model_id : String) (used : List String)
    (pre : String) :
    (codex_profile_name_for_model model_id used pre).1 ∉ used ∧
      (codex_profile_name_for_model model_id used pre).2 =
        (codex_profile_name_for_model model_id used pre).1 :: used ∧
      ∃ t, (codex_profile_name_for_model model_id used pre).1 = pre ++ t := by
  rw [codex_profile_name_for_model]
  set slug := if slugify model_id = "" then "model" else slugify model_id with hslug
  obtain ⟨hfree, -⟩ := firstFreeGo_full (candName (pre ++ "-" ++ slug))
    (candName_inj _) used
  refine ⟨hfree, rfl, ?_⟩
  cases hix : firstFreeGo (candName (pre ++ "-" ++ slug)) used (used.length + 1) 0 with
  | zero => exact ⟨"-" ++ slug, by simp [candName, String.append_assoc]⟩
  | succ k =>
    exact ⟨"-" ++ slug ++ "-" ++ natToDec (k + 2), by simp [candName, String.append_assoc]⟩

theorem codexProfilesGo_values (pid : String) (ids used : List String) :
    (codexProfilesGo pid ids used).map Prod.snd =
      ids.map (fun id => codexProfileEntry id pid) := by
  induction ids generalizing used with
  | nil => simp [codexProfilesGo]
  | cons id rest ih => simp [codexProfilesGo, ih]

theorem codexProfilesGo_keys_fresh (pid : String) (ids : List String) :
    ∀ used : List String, ∀ n ∈ Dict.keys (codexProfilesGo pid ids used), n ∉ used := by
  induction ids with
  | nil => intro used n hn; simp [codexProfilesGo, Dict.keys] at hn
  | cons id rest ih =>
    intro used n hn
    obtain ⟨hfree, hused, -⟩ := codex_profile_name_spec id used "lmstudio"
    rw [codexProfilesGo] at hn
    simp only [Dict.keys, List.map_cons, List.mem_cons] at hn
    rcases hn with rfl | hn
    · exact hfree
    · have := ih (codex_profile_name_for_model id used).2 n (by simpa [Dict.keys] using hn)
      rw [hused] at this
      exact fun hmem => this (List.mem_cons_of_mem _ hmem)

theorem codexProfilesGo_keys_nodup (pid : String) (ids : List String) :
    ∀ used : List String, (Dict.keys (codexProfilesGo pid ids used)).Nodup := by
  induction ids with
  | nil => intro used; simp [codexProfilesGo, Dict.keys]
  | cons id rest ih =>
    intro used
    obtain ⟨-, hused, -⟩ := codex_profile_name_spec id used "lmstudio"
    rw [codexProfilesGo]
    simp only [Dict.keys, List.map_cons, List.nodup_cons]
    constructor
    · intro hmem
      have := codexProfilesGo_keys_fresh pid rest
        (codex_profile_name_for_model id used).2
        (codex_profile_name_for_model id used).1 (by simpa [Dict.keys] using hmem)
      rw [hused] at this
      exact this (List.mem_cons_self _ _)
    · simpa [Dict.keys] using ih (codex_profile_name_for_model id used).2

theorem codexProfilesGo_keys_prefixed (pid : String) (ids : List String) :
    ∀ used : List String, ∀ n ∈ Dict.keys (codexProfilesGo pid ids used),
      ∃ t, n = "lmstudio" ++ t := by
  induction ids with
  | nil => intro used n hn; simp [codexProfilesGo, Dict.keys] at hn
  | cons id rest ih =>
    intro used n hn
    obtain ⟨-, -, hpre⟩ := codex_profile_name_spec id used "lmstudio"
    rw [codexProfilesGo] at hn
    simp only [Dict.keys, List.map_cons, List.mem_cons] at hn
    rcases hn with rfl | hn
    · exact hpre
    · exact ih (codex_profile_name_for_model id used).2 n (by simpa [Dict.keys] using hn)

/-- Claim C10: `codex_profile_name_for_model` returns a name that starts
with the prefix, was not in the used set at entry, and is added to the
used set before returning; consequently `generate_codex_profiles` assigns
pairwise-distinct names, exactly one per distinct model id in sorted
order, each mapped to a record whose `model` field is that id and whose
`model_provider` field is the given provider id. -/
theorem codex_profile_names_unique_and_complete (model_id : String)
    (used : List String) (pre : String) (model_ids : List String)
    (provider_id : String) :
    ((codex_profile_name_for_model model_id used pre).1 ∉ used ∧
      (codex_profile_name_for_model model_id used pre).2 =
        (codex_profile_name_for_model model_id used pre).1 :: used ∧
      ∃ t, (codex_profile_name_for_model model_id used pre).1 = pre ++ t) ∧
    (Dict.keys (generate_codex_profiles model_ids provider_id)).Nodup ∧
    (generate_codex_profiles model_ids provider_id).map Prod.snd =
      (sortedDedup model_ids).map
        (fun id => JValue.obj [("model", .str id), ("model_provider", .str provider_id)]) ∧
    ∀ n ∈ Dict.keys (generate_codex_profiles model_ids provider_id),
      ∃ t, n = "lmstudio" ++ t := by
  refine ⟨codex_profile_name_spec model_id used pre, ?_, ?_, ?_⟩
  · exact codexProfilesGo_keys_nodup provider_id (sortedDedup model_ids) []
  · simpa [codexProfileEntry] using
      codexProfilesGo_values provider_id (sortedDedup model_ids) []
  · exact codexProfilesGo_keys_prefixed provider_id (sortedDedup model_ids) []

-- Claim C1 -------------------------------------------------------------------

/-- Claim C1 counterexample: an existing editor-settings file whose
content parses to a non-object top level (here a JSON array, as produced
by a file containing `[1, 2]`) makes the settings merger raise a
`TypeError` at the owned-key assignment instead of substituting an empty
document and producing merged output. -/
theorem settings_merge_nonobject_counterexample :
    update_settings_merge (some (.arr [.int 1, .int 2])) [] =
      .error "TypeError: item assignment on a non-dict settings document" := rfl

/-- Claim C1 (amended): on a parse failure every one of the four mergers
substitutes an empty document and proceeds; on a successfully parsed
non-object top level the provider-map, provider-list and profile-table
mergers substitute an empty document as well, but the editor-settings
merger fails the run (it has no dict guard, so the owned-key assignment
raises `TypeError`). -/
theorem merge_parse_recovery (config provider codex_config : Dict)
    (pid : String) (v : JValue) (hv : ∀ kvs, v ≠ .obj kvs) :
    (update_settings_merge none config =
      .ok (Dict.set [] "github.copilot.chat.customOAIModels" (.obj config))) ∧
    (∃ e, update_settings_merge (some v) config = .error e) ∧
    (update_opencode_merge none pid provider =
      update_opencode_merge (some (.obj [])) pid provider) ∧
    (update_opencode_merge (some v) pid provider =
      update_opencode_merge (some (.obj [])) pid provider) ∧
    (update_pi_merge none pid provider =
      update_pi_merge (some (.obj [])) pid provider) ∧
    (update_pi_merge (some v) pid provider =
      update_pi_merge (some (.obj [])) pid provider) ∧
    (update_codex_merge none codex_config =
      update_codex_merge (some (.obj [])) codex_config) ∧
    (update_codex_merge (some v) codex_config =
      update_codex_merge (some (.obj [])) codex_config) := by
  refine ⟨rfl, ?_, rfl, ?_, rfl, ?_, rfl, ?_⟩
  · cases v with
    | obj kvs => exact absurd rfl (hv kvs)
    | null => exact ⟨_, rfl⟩
    | bool b => exact ⟨_, rfl⟩
    | int n => exact ⟨_, rfl⟩
    | str s => exact ⟨_, rfl⟩
    | arr xs => exact ⟨_, rfl⟩
  · cases v with
    | obj kvs => exact absurd rfl (hv kvs)
    | null => rfl
    | bool b => rfl
    | int n => rfl
    | str s => rfl
    | arr xs => rfl
  · cases v with
    | obj kvs => exact absurd rfl (hv kvs)
    | null => rfl
    | bool b => rfl
    | int n => rfl
    | str s => rfl
    | arr xs => rfl
  · cases v with
    | obj kvs => exact absurd rfl (hv kvs)
    | null => rfl
    | bool b => rfl
    | int n => rfl
    | str s => rfl
    | arr xs => rfl

/-- Witness for the amended C1 at the non-object value `5` and empty
payloads. -/
theorem merge_parse_recovery_witness :
    (update_settings_merge none [] =
      .ok (Dict.set [] "github.copilot.chat.customOAIModels" (.obj []))) ∧
    (∃ e, update_settings_merge (some (.int 5)) [] = .error e) ∧
    (update_opencode_merge none "lmstudio" [] =
      update_opencode_merge (some (.obj [])) "lmstudio" []) ∧
    (update_opencode_merge (some (.int 5)) "lmstudio" [] =
      update_opencode_merge (some (.obj [])) "lmstudio" []) ∧
    (update_pi_merge none "lmstudio" [] =
      update_pi_merge (some (.obj [])) "lmstudio" []) ∧
    (update_pi_merge (some (.int 5)) "lmstudio" [] =
      update_pi_merge (some (.obj [])) "lmstudio" []) ∧
    (update_codex_merge none [] =
      update_codex_merge (some (.obj [])) []) ∧
    (update_codex_merge (some (.int 5)) [] =
      update_codex_merge (some (.obj [])) []) :=
  merge_parse_recovery [] [] [] "lmstudio" (.int 5)
    (fun _ h => JValue.noConfusion h)

-- Claim C7 -------------------------------------------------------------------

theorem sorted_pySorted (l : List String) : List.Sorted pyStrLe (pySorted l) :=
  List.sorted_insertionSort pyStrLe l

theorem keys_filterMap_get (l : List String) (config : Dict)
    (f : String → JValue → JValue) :
    Dict.keys (l.filterMap fun k => (Dict.get? config k).map fun v => (k, f k v)) =
      l.filter fun k => (Dict.get? config k).isSome := by
  induction l with
  | nil => rfl
  | cons k rest ih =>
    rw [List.filterMap_cons, List.filter_cons]
    cases hg : Dict.get? config k with
    | none => simpa [hg] using ih
    | some v => simp only [hg, Option.map_some, Option.isSome_some, if_pos,
        Dict.keys, List.map_cons] at ih ⊢
                exact congrArg _ ih

theorem mem_orderLike (l : List String) (config : Dict)
    (f : String → JValue → JValue) (kv : String × JValue)
    (h : kv ∈ l.filterMap fun k => (Dict.get? config k).map fun v => (k, f k v)) :
    ∃ k v, Dict.get? config k = some v ∧ kv = (k, f k v) := by
  rw [List.mem_filterMap] at h
  obtain ⟨k, -, hk⟩ := h
  rw [Option.map_eq_some'] at hk
  obtain ⟨v, hv, heq⟩ := hk
  exact ⟨k, v, hv, heq.symm⟩

theorem sortEntriesByKey_keys_sorted (e : Dict) :
    List.Sorted pyStrLe (Dict.keys (sortEntriesByKey e)) := by
  have h := List.sorted_insertionSort entryLe e
  rw [Dict.keys]
  exact (List.pairwise_map).mpr h

/-- Claim C7 counterexample: for a one-model catalog, the provider-map
generator's provider record lists its fields as
`npm, name, options, models` — insertion order, not sorted by key — even
though the JSON target format imposes no field order. -/
theorem generator_field_order_counterexample :
    (generate_opencode_provider
        [⟨some "m", some "llm", some (.int 100), none⟩] "u").map
        (fun pr => Dict.keys pr.2) =
      .ok ["npm", "name", "options", "models"] ∧
    ¬ List.Sorted pyStrLe ["npm", "name", "options", "models"] :=
  ⟨rfl, by decide⟩

/-- Claim C7 (amended): each generator is deterministic (rerunning on an
unchanged input yields identical output), and model collections are
ordered by model id: the editor-settings model map keys, the provider-map
models keys, the provider-list models array, and the sorted distinct id
list the profile table is built from; the editor-settings generator also
sorts each entry's fields by key.  Owned provider record fields of the
other generators stay in fixed insertion order (see the counterexample),
which does not affect rerun stability. -/
theorem generators_deterministic_and_sorted (models : List ModelInfo)
    (url base_url pid pname : String) (mc : Option Int) (tf vf : String) :
    (generate_copilot_config models url mc tf vf =
      generate_copilot_config models url mc tf vf) ∧
    (generate_opencode_provider models base_url pid pname mc tf vf =
      generate_opencode_provider models base_url pid pname mc tf vf) ∧
    (generate_pi_provider models base_url pid mc tf vf =
      generate_pi_provider models base_url pid mc tf vf) ∧
    (generate_codex_config models base_url pid pname mc tf vf =
      generate_codex_config models base_url pid pname mc tf vf) ∧
    (∀ c, generate_copilot_config models url mc tf vf = .ok c →
      List.Sorted pyStrLe (Dict.keys c) ∧
        ∀ kv ∈ c, ∀ e, kv.2 = .obj e → List.Sorted pyStrLe (Dict.keys e)) ∧
    (∀ pr, generate_opencode_provider models base_url pid pname mc tf vf = .ok pr →
      ∃ mm, Dict.get? pr.2 "models" = some (.obj mm) ∧
        List.Sorted pyStrLe (Dict.keys mm)) ∧
    (∀ pr, generate_pi_provider models base_url pid mc tf vf = .ok pr →
      ∃ entries : List Dict,
        Dict.get? pr.2 "models" = some (.arr (entries.map JValue.obj)) ∧
        List.Sorted pyStrLe (entries.map piEntryId)) ∧
    List.Sorted pyStrLe (sortedDedup (codexCollectIds (filter_models models mc tf vf))) := by
  set ms := filter_models models mc tf vf with hms
  refine ⟨rfl, rfl, rfl, rfl, ?_, ?_, ?_, ?_⟩
  · intro c hok
    by_cases hc : (copilotBuild url ms []).isEmpty
    · simp [generate_copilot_config, hc] at hok
    · simp only [generate_copilot_config, ← hms, if_neg hc, Except.ok.injEq] at hok
      subst hok
      constructor
      · rw [orderCopilot, keys_filterMap_get]
        exact (sorted_pySorted _).filter _
      · intro kv hkv e he
        obtain ⟨k, v, hv, hkveq⟩ := mem_orderLike _ _ _ kv hkv
        subst hkveq
        cases v with
        | obj e0 =>
          simp only at he
          injection he with he2
          subst he2
          exact sortEntriesByKey_keys_sorted e0
        | null => exact absurd he (by simp)
        | bool b => exact absurd he (by simp)
        | int n => exact absurd he (by simp)
        | str s => exact absurd he (by simp)
        | arr xs => exact absurd he (by simp)
  · intro pr hok
    by_cases hc : (opencodeBuild ms []).isEmpty
    · simp [generate_opencode_provider, hc] at hok
    · simp only [generate_opencode_provider, ← hms, if_neg hc, Except.ok.injEq] at hok
      subst hok
      refine ⟨orderByKey (opencodeBuild ms []), by simp [Dict.get?], ?_⟩
      rw [orderByKey, keys_filterMap_get]
      exact (sorted_pySorted _).filter _
  · intro pr hok
    by_cases hc : (piBuild ms).isEmpty
    · simp [generate_pi_provider, hc] at hok
    · simp only [generate_pi_provider, ← hms, if_neg hc, Except.ok.injEq] at hok
      subst hok
      refine ⟨(piBuild ms).insertionSort piEntryLe, by simp [Dict.get?], ?_⟩
      exact (List.pairwise_map).mpr (List.sorted_insertionSort piEntryLe (piBuild ms))
  · rw [sortedDedup]
    exact sorted_pySorted _

-- Claim C8 -------------------------------------------------------------------

theorem Dict.get?_append_of_none (d d' : Dict) (k : String)
    (h : Dict.get? d k = none) : Dict.get? (d ++ d') k = Dict.get? d' k := by
  induction d with
  | nil => rfl
  | cons hd tl ih =>
    by_cases hh : hd.1 = k
    · simp [Dict.get?, hh] at h
    · simp only [List.cons_append, Dict.get?, if_neg hh] at *
      exact ih h

theorem Dict.get?_setdefault_self (d : Dict) (k : String) (v : JValue) :
    Dict.get? (d.setdefault k v) k = some ((Dict.get? d k).getD v) := by
  unfold Dict.setdefault
  cases hg : Dict.get? d k with
  | some w => simp [hg]
  | none =>
    rw [Dict.get?_append_of_none _ _ _ hg]
    simp [Dict.get?]

/-- Idempotence of the provider-map merge: merging the same payload into
its own merge result reproduces the result exactly. -/
theorem opencode_merge_idempotent (d : Dict) (pid : String) (p : Dict) (m : Dict)
    (h : update_opencode_merge (some (.obj d)) pid p = .ok m) :
    update_opencode_merge (some (.obj m)) pid p = .ok m := by
  cases hb : opencodeBaseURLOf p with
  | error e => simp [update_opencode_merge, hb] at h
  | ok u =>
    simp only [update_opencode_merge, parsedOrEmpty, Option.getD_some, hb, bind,
      Except.bind, pure, Except.pure, Except.ok.injEq] at h ⊢
    subst h
    set cfg1 := d.setdefault "$schema" (JValue.str "https://opencode.ai/config.json")
      with hcfg1
    set P1 := objOrEmpty (Dict.get? cfg1 "provider") with hP1
    set E := objOrEmpty (Dict.get? P1 pid) with hE
    set A := (Dict.get? p "npm").getD JValue.null with hA
    set B := (Dict.get? p "name").getD JValue.null with hB
    set MO := (objOrEmpty (Dict.get? E "options")).set "baseURL" u with hMO
    set C := (Dict.get? p "models").getD (JValue.obj []) with hC
    set MP := (((E.set "npm" A).set "name" B).set "options" (JValue.obj MO)).set
      "models" C with hMP
    set P2 := P1.set pid (JValue.obj MP) with hP2
    set M := cfg1.set "provider" (JValue.obj P2) with hM
    have h1 : Dict.get? M "$schema" =
        some ((Dict.get? d "$schema").getD (JValue.str "https://opencode.ai/config.json")) := by
      rw [hM, Dict.get?_set_ne _ _ _ _ (by decide), hcfg1, Dict.get?_setdefault_self]
    have hsd : M.setdefault "$schema" (JValue.str "https://opencode.ai/config.json") = M :=
      Dict.setdefault_of_mem _ _ _ _ h1
    rw [hsd]
    have h2 : objOrEmpty (Dict.get? M "provider") = P2 := by
      rw [hM, Dict.get?_set_self]
      rfl
    rw [h2]
    have h3 : objOrEmpty (Dict.get? P2 pid) = MP := by
      rw [hP2, Dict.get?_set_self]
      rfl
    rw [h3]
    have h4 : Dict.get? MP "npm" = some A := by
      rw [hMP, Dict.get?_set_ne _ _ _ _ (by decide), Dict.get?_set_ne _ _ _ _ (by decide),
        Dict.get?_set_ne _ _ _ _ (by decide), Dict.get?_set_self]
    rw [Dict.set_eq_self _ _ _ h4]
    have h6 : Dict.get? MP "name" = some B := by
      rw [hMP, Dict.get?_set_ne _ _ _ _ (by decide), Dict.get?_set_ne _ _ _ _ (by decide),
        Dict.get?_set_self]
    rw [Dict.set_eq_self _ _ _ h6]
    have h8 : objOrEmpty (Dict.get? MP "options") = MO := by
      rw [hMP, Dict.get?_set_ne _ _ _ _ (by decide), Dict.get?_set_self]
      rfl
    rw [h8]
    have h9 : Dict.get? MO "baseURL" = some u := by
      rw [hMO, Dict.get?_set_self]
    rw [Dict.set_eq_self _ _ _ h9]
    have h11 : Dict.get? MP "options" = some (JValue.obj MO) := by
      rw [hMP, Dict.get?_set_ne _ _ _ _ (by decide), Dict.get?_set_self]
    rw [Dict.set_eq_self _ _ _ h11]
    have h13 : Dict.get? MP "models" = some C := by
      rw [hMP, Dict.get?_set_self]
    rw [Dict.set_eq_self _ _ _ h13]
    have h15 : Dict.get? P2 pid = some (JValue.obj MP) := by
      rw [hP2, Dict.get?_set_self]
    rw [Dict.set_eq_self _ _ _ h15]
    rw [hM, Dict.set_set]

/-- Claim C8: merging the same generated payload into a target file that
already contains exactly that merged payload is idempotent.  Here the
existing file's text is the serialization of the merged document `m` at
the indentation `i` the text detects; the merge reproduces `m`, so the
line diff is empty, the confirm gate returns `unchanged` without
prompting, and the file is neither rewritten nor backed up. -/
theorem opencode_update_idempotent_unchanged (ex : Bool) (d : Dict)
    (pid : String) (p : Dict) (resp : String) (i : Nat) (m : Dict)
    (hm : update_opencode_merge (some (.obj d)) pid p = .ok m)
    (hind : (if jsonDumps (.obj m) i = "" then 2
             else detect_indentation (jsonDumps (.obj m) i)) = i) :
    update_opencode_merge (some (.obj m)) pid p = .ok m ∧
    update_opencode_core ex (jsonDumps (.obj m) i) (some (.obj m)) pid p resp =
      .ok { newContent := jsonDumps (.obj m) i, decision := .unchanged,
            prompted := false, wrote := false, backedUp := false } := by
  have hid := opencode_merge_idempotent d pid p m hm
  refine ⟨hid, ?_⟩
  rw [update_opencode_core]
  simp only [hind, hid, bind, Except.bind, pure, Except.pure]
  rw [show_diff_and_confirm, if_pos rfl]
  simp

/-- Witness for C8: a concrete generated provider payload merged into an
empty document yields `M8`; rerunning the update on a file holding
exactly that serialized document returns `unchanged` without prompting
and without writing. -/
theorem opencode_update_idempotent_unchanged_witness :
    update_opencode_merge
        (some (.obj
          [("$schema", JValue.str "https://opencode.ai/config.json"),
           ("provider",
            JValue.obj
              [("lmstudio",
                JValue.obj
                  [("npm", JValue.str "@ai-sdk/openai-compatible"),
                   ("name", JValue.str "LM Studio (local)"),
                   ("options", JValue.obj [("baseURL", JValue.str "http://h/v1")]),
                   ("models",
                    JValue.obj [("m", JValue.obj [("name", JValue.str "m")])])])])]))
        "lmstudio"
        [("npm", JValue.str "@ai-sdk/openai-compatible"),
         ("name", JValue.str "LM Studio (local)"),
         ("options", JValue.obj [("baseURL", JValue.str "http://h/v1")]),
         ("models", JValue.obj [("m", JValue.obj [("name", JValue.str "m")])])] =
      .ok
        [("$schema", JValue.str "https://opencode.ai/config.json"),
         ("provider",
          JValue.obj
            [("lmstudio",
              JValue.obj
                [("npm", JValue.str "@ai-sdk/openai-compatible"),
                 ("name", JValue.str "LM Studio (local)"),
                 ("options", JValue.obj [("baseURL", JValue.str "http://h/v1")]),
                 ("models",
                  JValue.obj [("m", JValue.obj [("name", JValue.str "m")])])])])] ∧
    update_opencode_core true
        (jsonDumps
          (.obj
            [("$schema", JValue.str "https://opencode.ai/config.json"),
             ("provider",
              JValue.obj
                [("lmstudio",
                  JValue.obj
                    [("npm", JValue.str "@ai-sdk/openai-compatible"),
                     ("name", JValue.str "LM Studio (local)"),
                     ("options", JValue.obj [("baseURL", JValue.str "http://h/v1")]),
                     ("models",
                      JValue.obj [("m", JValue.obj [("name", JValue.str "m")])])])])])
          2)
        (some (.obj
          [("$schema", JValue.str "https://opencode.ai/config.json"),
           ("provider",
            JValue.obj
              [("lmstudio",
                JValue.obj
                  [("npm", JValue.str "@ai-sdk/openai-compatible"),
                   ("name", JValue.str "LM Studio (local)"),
                   ("options", JValue.obj [("baseURL", JValue.str "http://h/v1")]),
                   ("models",
                    JValue.obj [("m", JValue.obj [("name", JValue.str "m")])])])])]))
        "lmstudio"
        [("npm", JValue.str "@ai-sdk/openai-compatible"),
         ("name", JValue.str "LM Studio (local)"),
         ("options", JValue.obj [("baseURL", JValue.str "http://h/v1")]),
         ("models", JValue.obj [("m", JValue.obj [("name", JValue.str "m")])])] "n" =
      .ok
        { newContent :=
            jsonDumps
              (.obj
                [("$schema", JValue.str "https://opencode.ai/config.json"),
                 ("provider",
                  JValue.obj
                    [("lmstudio",
                      JValue.obj
                        [("npm", JValue.str "@ai-sdk/openai-compatible"),
                         ("name", JValue.str "LM Studio (local)"),
                         ("options", JValue.obj [("baseURL", JValue.str "http://h/v1")]),
                         ("models",
                          JValue.obj [("m", JValue.obj [("name", JValue.str "m")])])])])])
              2
          decision := .unchanged, prompted := false, wrote := false,
          backedUp := false } :=
  opencode_update_idempotent_unchanged true [] "lmstudio"
    [("npm", JValue.str "@ai-sdk/openai-compatible"),
     ("name", JValue.str "LM Studio (local)"),
     ("options", JValue.obj [("baseURL", JValue.str "http://h/v1")]),
     ("models", JValue.obj [("m", JValue.obj [("name", JValue.str "m")])])] "n" 2
    [("$schema", JValue.str "https://opencode.ai/config.json"),
     ("provider",
      JValue.obj
        [("lmstudio",
          JValue.obj
            [("npm", JValue.str "@ai-sdk/openai-compatible"),
             ("name", JValue.str "LM Studio (local)"),
             ("options", JValue.obj [("baseURL", JValue.str "http://h/v1")]),
             ("models", JValue.obj [("m", JValue.obj [("name", JValue.str "m")])])])])]
    rfl (by decide)

-- Additional witnesses ------------------------------------------------------

/-- Witness for C6: on an empty catalog, the editor-settings generator
does fail with the empty-result error. -/
theorem generators_fail_iff_no_survivors_witness :
    generate_copilot_config [] "u" none "any" "any" =
      .error "No LLM models matched the selected filters." :=
  (generators_fail_iff_no_survivors [] "u" "b" "lmstudio" "LM Studio (local)" none
      "any" "any").1.mpr rfl

/-- Witness for the amended C7: the editor-settings output for a concrete
one-model catalog has its model map keys in sorted order. -/
theorem generators_deterministic_and_sorted_witness :
    List.Sorted pyStrLe
      (Dict.keys
        [("m",
          JValue.obj
            [("maxInputTokens", JValue.int 100), ("maxOutputTokens", JValue.int 100),
             ("name", JValue.str "m"), ("requiresAPIKey", JValue.bool false),
             ("thinking", JValue.bool true), ("toolCalling", JValue.bool false),
             ("url", JValue.str "u"), ("vision", JValue.bool false)])]) :=
  ((generators_deterministic_and_sorted
      [⟨some "m", some "llm", some (.int 100), none⟩] "u" "b" "lmstudio"
      "LM Studio (local)" none "any" "any").2.2.2.2.1
    [("m",
      JValue.obj
        [("maxInputTokens", JValue.int 100), ("maxOutputTokens", JValue.int 100),
         ("name", JValue.str "m"), ("requiresAPIKey", JValue.bool false),
         ("thinking", JValue.bool true), ("toolCalling", JValue.bool false),
         ("url", JValue.str "u"), ("vision", JValue.bool false)])] rfl).1

/-- Witness for the amended C9: when index 0 is taken the chosen backup
name is a fresh one. -/
theorem create_backup_least_unused_index_witness :
    create_backup "settings" "settings" "250924" "json"
        ["settings.250924-0.backup.json"] ∉ ["settings.250924-0.backup.json"] :=
  (create_backup_least_unused_index "settings" "settings" "250924" "json"
      ["settings.250924-0.backup.json"]).1

/-- Witness for C10: a second call with the same model id returns a fresh
name and records it. -/
theorem codex_profile_names_unique_and_complete_witness :
    (codex_profile_name_for_model "My Model" ["lmstudio-my-model"] "lmstudio").1 ∉
        ["lmstudio-my-model"] ∧
      (codex_profile_name_for_model "My Model" ["lmstudio-my-model"] "lmstudio").2 =
        (codex_profile_name_for_model "My Model" ["lmstudio-my-model"] "lmstudio").1 ::
          ["lmstudio-my-model"] :=
  ⟨(codex_profile_names_unique_and_complete "My Model" ["lmstudio-my-model"]
      "lmstudio" ["B", "A"] "provider").1.1,
    (codex_profile_names_unique_and_complete "My Model" ["lmstudio-my-model"]
      "lmstudio" ["B", "A"] "provider").1.2.1⟩

end LMStudioAgentConfig
